import Mathlib

/-!
Shallow embedding of the global-commerce-mcp signal calculators, alert
triggers, arbitrage analyzer, scrapers and circuit breaker, with theorems
settling the frozen claims about them.

Numeric conventions: Python `Decimal` and `float` arithmetic is modelled
over `ℚ` where the code only adds, multiplies, divides and compares, and
over `ℝ` where the code takes square roots (`statistics.stdev`) or real
powers (`math.pow`).  `round(x, n)` is modelled with `round` (it agrees
with Python's float `round` except exactly at ties, which no statement
here touches).  Python `int(x)` truncation toward zero is `ratTrunc`.
-/

/-- Python `round(x, 1)` over `ℚ`. -/
def round1 (x : ℚ) : ℚ := (round (10 * x) : ℚ) / 10

/-- Python `round(x, 2)` over `ℚ`. -/
def round2 (x : ℚ) : ℚ := (round (100 * x) : ℚ) / 100

/-- Python `round(x, 1)` over `ℝ`. -/
noncomputable def round1R (x : ℝ) : ℝ := (round (10 * x) : ℝ) / 10

/-- Python `round(x, 2)` over `ℝ`. -/
noncomputable def round2R (x : ℝ) : ℝ := (round (100 * x) : ℝ) / 100

/-- Python `int(x)` for a rational: truncation toward zero. -/
def ratTrunc (x : ℚ) : ℤ := if x < 0 then -⌊-x⌋ else ⌊x⌋

/-- `statistics.mean` over `ℚ` (total, with junk value `0` on `[]`,
which every caller guards against). -/
def listMean (l : List ℚ) : ℚ := l.sum / (l.length : ℚ)

/-- `statistics.variance`-style sample variance (denominator `n - 1`). -/
def sampleVar (l : List ℚ) : ℚ :=
  (l.map (fun x => (x - listMean l) ^ 2)).sum / ((l.length : ℚ) - 1)

/-- `statistics.stdev`: square root of the sample variance. -/
noncomputable def sampleStdev (l : List ℚ) : ℝ := Real.sqrt (sampleVar l)

/-- One insertion step of a stable insertion sort: `keepB x y = true`
means the already-placed `y` stays in front of the inserted `x`. -/
def insertKeep (keepB : α → α → Bool) (x : α) : List α → List α
  | [] => [x]
  | y :: ys => if keepB x y then y :: insertKeep keepB x ys else x :: y :: ys

/-- Stable sort by repeated insertion; with `keepB x y := key y < key x`
this is Python's stable `sorted` ascending on `key`, and with
`keepB x y := key x < key y` it is `sorted(..., reverse=True)`. -/
def sortKeep (keepB : α → α → Bool) : List α → List α
  | [] => []
  | x :: xs => insertKeep keepB x (sortKeep keepB xs)

/-- The daily metric record (`src/db/models.py`, `DailyMetric`), restricted
to the fields the calculators and triggers read.  `date` is a day number,
so Python's `(d2 - d1).days` is plain subtraction.  `rating` and `price`
are `Numeric` columns, `reviews`/`rank` integers, `seller_count` a count. -/
structure DailyMetric where
  date : ℤ
  price : ℚ
  rank : Option ℤ
  reviews : ℤ
  rating : ℚ
  seller_count : ℕ
  in_stock : Bool
  buybox_owner : Option String
  deriving DecidableEq

instance : Inhabited DailyMetric := ⟨⟨0, 0, none, 0, 0, 0, true, none⟩⟩

/-- `sorted(metrics, key=lambda m: m.date)` (stable, ascending). -/
def sortMetrics (ms : List DailyMetric) : List DailyMetric :=
  sortKeep (fun x y => y.date < x.date) ms

namespace Demand

/-- `DemandCalculator._calculate_review_velocity`. -/
def review_velocity (ms : List DailyMetric) : ℚ :=
  if ms.length < 2 then 0
  else
    let oldest := ms.headI
    let newest := ms.getLastI
    let day_diff := newest.date - oldest.date
    if day_diff = 0 then 0
    else ((newest.reviews - oldest.reviews : ℤ) : ℚ) / (day_diff : ℚ)

/-- `DemandCalculator._calculate_rank_improvement`. -/
def rank_improvement (ms : List DailyMetric) : ℚ :=
  if ms.length < 2 then 0
  else
    match (ms.headI).rank, (ms.getLastI).rank with
    | some r0, some r1 => if r0 = 0 then 0 else ((r0 - r1 : ℤ) : ℚ) / (r0 : ℚ)
    | _, _ => 0

/-- `DemandCalculator._calculate_stockout_frequency`. -/
def stockout_frequency (ms : List DailyMetric) : ℚ :=
  if ms = [] then 0
  else ((ms.filter (fun m => !m.in_stock)).length : ℚ) / (ms.length : ℚ)

/-- `DemandCalculator._calculate_price_increase`. -/
def price_increase (ms : List DailyMetric) : ℚ :=
  if ms.length < 2 then 0
  else
    let oldest := ms.headI
    let newest := ms.getLastI
    if oldest.price = 0 then 0 else (newest.price - oldest.price) / oldest.price

/-- `DemandCalculator.calculate(...).score`: weighted sum of the normalized
signals, times 100, rounded to one decimal (0 on fewer than 2 points). -/
def score (metrics : List DailyMetric) : ℚ :=
  if metrics.length < 2 then 0
  else
    let s := sortMetrics metrics
    let norm_review := min (review_velocity s / 50) 1
    let norm_rank := min (max (rank_improvement s) 0 / 0.5) 1
    let norm_stockout := min (stockout_frequency s / 0.3) 1
    let norm_price := min (max (price_increase s) 0 / 0.2) 1
    round1 ((norm_review * 0.4 + norm_rank * 0.3 + norm_stockout * 0.2
      + norm_price * 0.1) * 100)

end Demand

namespace Trend

/-- `TrendCalculator._velocity`. -/
def velocity (ms : List DailyMetric) : ℚ :=
  if ms.length < 2 then 0
  else
    let oldest := ms.headI
    let newest := ms.getLastI
    let days := newest.date - oldest.date
    if days = 0 then 0
    else ((newest.reviews - oldest.reviews : ℤ) : ℚ) / (days : ℚ)

/-- `TrendCalculator._calculate_review_velocity_growth`. -/
def review_velocity_growth (first_half second_half : List DailyMetric) : ℚ :=
  let v1 := velocity first_half
  let v2 := velocity second_half
  if v1 = 0 then (if v2 > 0 then 1 else 0) else (v2 - v1) / |v1|

/-- `TrendCalculator._rank_improvement_rate`. -/
def rank_improvement_rate (ms : List DailyMetric) : ℚ :=
  if ms.length < 2 then 0
  else
    let ranks := ms.filterMap (fun m => m.rank)
    if ranks.length < 2 then 0
    else
      let days := (ms.getLastI).date - (ms.headI).date
      if days = 0 then 0
      else
        let r0 := ranks.headI
        if r0 = 0 then 0
        else ((r0 - ranks.getLastI : ℤ) : ℚ) / ((r0 : ℚ) * (days : ℚ))

/-- `TrendCalculator._calculate_rank_acceleration`. -/
def rank_acceleration (first_half second_half : List DailyMetric) : ℚ :=
  let r1 := rank_improvement_rate first_half
  let r2 := rank_improvement_rate second_half
  if r1 = 0 then r2 else (r2 - r1) / |r1|

/-- `TrendCalculator._calculate_price_growth`. -/
def price_growth (ms : List DailyMetric) : ℚ :=
  if ms.length < 2 then 0
  else
    let oldest := ms.headI
    let newest := ms.getLastI
    if oldest.price = 0 then 0 else (newest.price - oldest.price) / oldest.price

/-- `TrendCalculator._normalize_growth`. -/
def normalize_growth (value max_val : ℚ) : ℚ := max (-1) (min 1 (value / max_val))

/-- `TrendCalculator.calculate(...).score`: in `[-100, 100]`, 0 on fewer
than 14 points. -/
def score (metrics : List DailyMetric) : ℚ :=
  if metrics.length < 14 then 0
  else
    let s := sortMetrics metrics
    let mid := s.length / 2
    let first_half := s.take mid
    let second_half := s.drop mid
    let norm_review := normalize_growth (review_velocity_growth first_half second_half) 2
    let norm_rank := normalize_growth (rank_acceleration first_half second_half) 1
    let norm_price := normalize_growth (price_growth s) 0.5
    round1 ((norm_review * 0.5 + norm_rank * 0.3 + norm_price * 0.2) * 100)

end Trend

/-- Count of adjacent positions where the two values differ. -/
def countAdjChanges [DecidableEq α] : List α → ℕ
  | a :: b :: rest => (if a ≠ b then 1 else 0) + countAdjChanges (b :: rest)
  | _ => 0

namespace Competition

/-- `CompetitionCalculator._calculate_avg_sellers`. -/
def avg_sellers (ms : List DailyMetric) : ℚ :=
  if ms = [] then 1
  else ((ms.map (fun m => (m.seller_count : ℚ))).sum) / (ms.length : ℚ)

/-- Truthy buybox owners: `[m.buybox_owner for m in metrics if m.buybox_owner]`
(`None` and the empty string are both falsy). -/
def truthyOwners (ms : List DailyMetric) : List String :=
  ms.filterMap (fun m => m.buybox_owner.bind (fun s => if s = "" then none else some s))

/-- `CompetitionCalculator._calculate_review_concentration` (Herfindahl-style
concentration of buybox ownership). -/
def review_concentration (ms : List DailyMetric) : ℚ :=
  if ms = [] then 0.5
  else
    let owners := truthyOwners ms
    if owners = [] then 0.5
    else
      let total := (owners.length : ℚ)
      (owners.dedup.map (fun k => ((owners.count k : ℚ) / total) ^ 2)).sum

/-- `CompetitionCalculator._calculate_buybox_volatility`. -/
def buybox_volatility (ms : List DailyMetric) : ℚ :=
  if ms.length < 2 then 0.5
  else
    let changes := countAdjChanges (ms.map (fun m => m.buybox_owner))
    ((changes : ℚ)) / ((ms.length : ℚ) - 1)

/-- `CompetitionCalculator.calculate(...).score`: 50 on empty input,
otherwise the weighted sum times 100, rounded to one decimal. -/
def score (metrics : List DailyMetric) : ℚ :=
  if metrics = [] then 50
  else
    let norm_sellers := min (avg_sellers metrics / 50) 1
    let conc_inverted := 1 - review_concentration metrics
    round1 ((norm_sellers * 0.4 + conc_inverted * 0.3
      + buybox_volatility metrics * 0.3) * 100)

end Competition

namespace Risk

/-- Daily review deltas clamped at 0: `max(0, m[i].reviews - m[i-1].reviews)`. -/
def daily_changes : List DailyMetric → List ℤ
  | a :: b :: rest => max 0 (b.reviews - a.reviews) :: daily_changes (b :: rest)
  | _ => []

/-- `RiskCalculator._detect_review_spikes`: `(spike_detected, magnitude)`. -/
def detect_review_spikes (ms : List DailyMetric) : Bool × ℚ :=
  if ms.length < 7 then (false, 0)
  else
    let changes := daily_changes ms
    if changes = [] ∨ changes.max? = some 0 then (false, 0)
    else
      let avg_change := listMean (changes.map (fun (c : ℤ) => (c : ℚ)))
      if avg_change = 0 then (false, 0)
      else
        let max_change := ((changes.max?.getD 0 : ℤ) : ℚ)
        let magnitude := max_change / avg_change
        (if magnitude > 3 then true else false, magnitude)

/-- `RiskCalculator._calculate_seller_churn`. -/
def seller_churn (ms : List DailyMetric) : ℚ :=
  if ms.length < 2 then 0
  else ((countAdjChanges (ms.map (fun m => m.seller_count)) : ℚ)) / ((ms.length : ℚ) - 1)

/-- `RiskCalculator._calculate_rating_volatility`: sample standard deviation
of the truthy (nonzero) ratings. -/
noncomputable def rating_volatility (ms : List DailyMetric) : ℝ :=
  let ratings := (ms.filter (fun m => m.rating ≠ 0)).map (fun m => m.rating)
  if ratings.length < 2 then 0 else sampleStdev ratings

/-- The signals record handed to `_generate_flags`. -/
structure Signals where
  review_spike_detected : Bool
  review_spike_magnitude : ℚ
  seller_churn_rate : ℚ
  rating_volatility : ℝ

/-- Signals computed by `RiskCalculator.calculate` from the date-sorted metrics. -/
noncomputable def signalsOf (sorted : List DailyMetric) : Signals :=
  { review_spike_detected := (detect_review_spikes sorted).1
    review_spike_magnitude := (detect_review_spikes sorted).2
    seller_churn_rate := seller_churn sorted
    rating_volatility := rating_volatility sorted }

/-- A risk flag (`category`, `severity`); the free-text description is omitted. -/
structure Flag where
  category : String
  severity : String
  deriving DecidableEq

/-- `RiskCalculator._generate_flags`. -/
noncomputable def generate_flags (s : Signals) : List Flag :=
  (if s.review_spike_detected then
    [⟨"review_manipulation",
      if s.review_spike_magnitude > 5 then "high"
      else if s.review_spike_magnitude > 3 then "medium"
      else "low"⟩]
  else [])
  ++ (if s.seller_churn_rate > 0.3 then [⟨"seller_instability", "medium"⟩] else [])
  ++ (if s.rating_volatility > (0.5 : ℝ) then [⟨"quality_issues", "medium"⟩] else [])

/-- Flags of `RiskCalculator.calculate` (empty on fewer than 7 points). -/
noncomputable def flags (metrics : List DailyMetric) : List Flag :=
  if metrics.length < 7 then [] else generate_flags (signalsOf (sortMetrics metrics))

/-- `RiskCalculator.calculate(...).score`: 0 on fewer than 7 points,
otherwise the weighted sum of the normalized signals times 100. -/
noncomputable def score (metrics : List DailyMetric) : ℝ :=
  if metrics.length < 7 then 0
  else
    let s := signalsOf (sortMetrics metrics)
    let norm_spike := min (s.review_spike_magnitude / 5) 1
    let norm_churn := min (s.seller_churn_rate / 0.5) 1
    let norm_volatility := min (s.rating_volatility / 1) 1
    round1R (((((norm_spike * 0.4 + norm_churn * 0.3 : ℚ)) : ℝ)
      + norm_volatility * 0.3) * 100)

end Risk

namespace Engine

/-- `IntelligenceEngine._calculate_overall_score`. -/
noncomputable def overall_score (demand competition trend risk : ℝ) : ℝ :=
  let demand_weight : ℝ := 0.35
  let trend_weight : ℝ := 0.25
  let competition_weight : ℝ := 0.20
  let risk_weight : ℝ := 0.20
  let normalized_trend := (trend + 100) / 2
  let inverted_competition := 100 - competition
  let inverted_risk := 100 - risk
  round1R (demand * demand_weight + normalized_trend * trend_weight
    + inverted_competition * competition_weight + inverted_risk * risk_weight)

/-- `IntelligenceEngine.analyze_product(...).overall_score`: the overall
score applied to the four calculator results on the same metric list. -/
noncomputable def overallOf (metrics : List DailyMetric) : ℝ :=
  overall_score ((Demand.score metrics : ℚ) : ℝ) ((Competition.score metrics : ℚ) : ℝ)
    ((Trend.score metrics : ℚ) : ℝ) (Risk.score metrics)

end Engine

namespace Revenue

/-- `AMAZON_CATEGORY_CALIBRATION` / `CATEGORY_CALIBRATION.get(category, default)`. -/
def CATEGORY_CALIBRATION (category : String) : ℝ × ℝ :=
  if category = "Electronics" then (50000, 0.8)
  else if category = "Home & Kitchen" then (30000, 0.75)
  else if category = "Toys & Games" then (25000, 0.7)
  else if category = "Sports & Outdoors" then (20000, 0.7)
  else if category = "Beauty & Personal Care" then (35000, 0.75)
  else if category = "Health & Household" then (30000, 0.72)
  else if category = "Clothing" then (40000, 0.78)
  else if category = "Books" then (60000, 0.85)
  else (25000, 0.72)

/-- `RevenueEstimator._calculate_daily_sales`: the power law
`a * rank ** (-b)` clamped to `[0.1, 10000]`, and 0 for `rank <= 0`. -/
noncomputable def calculate_daily_sales (rank : ℤ) (a b : ℝ) : ℝ :=
  if rank ≤ 0 then 0
  else max 0.1 (min (a * (rank : ℝ) ^ (-b)) 10000)

/-- The fields of `RevenueEstimate` that `estimate_from_rank` fills in. -/
structure Estimate where
  estimated_daily_sales : ℝ
  estimated_monthly_revenue : ℝ
  estimated_monthly_units : ℤ
  confidence : ℝ

/-- `RevenueEstimator.estimate_from_rank`. -/
noncomputable def estimate_from_rank (rank : ℤ) (price : ℚ) (category : String) :
    Estimate :=
  if rank ≤ 0 then ⟨0, 0, 0, 0.3⟩
  else
    let ab := CATEGORY_CALIBRATION category
    let daily_sales := calculate_daily_sales rank ab.1 ab.2
    { estimated_daily_sales := round2R daily_sales
      estimated_monthly_revenue := round2R (daily_sales * 30 * (price : ℝ))
      estimated_monthly_units := ⌊daily_sales * 30⌋
      confidence := 0.5 }

end Revenue

/-- Map over adjacent pairs: `[f a b, f b c, ...]`. -/
def adjMap (f : α → α → β) : List α → List β
  | a :: b :: rest => f a b :: adjMap f (b :: rest)
  | _ => []

/-- A detected discount event (`DiscountEvent`). -/
structure DiscountEvent where
  date : ℤ
  original_price : ℚ
  discounted_price : ℚ
  discount_percent : ℚ
  deriving DecidableEq

instance : Inhabited DiscountEvent := ⟨⟨0, 0, 0, 0⟩⟩

namespace DiscountCycle

def MIN_DISCOUNT_THRESHOLD : ℚ := 0.05

/-- Loop body of `_detect_discounts` at index `i` (7 ≤ i < len): compare
the price against the trailing 7-day mean and record a new event unless it
continues a discount recorded at most 3 days earlier. -/
def detectStep (ms : List DailyMetric) (acc : List DiscountEvent) (i : ℕ) :
    List DiscountEvent :=
  let baseline := listMean (((ms.drop (i - 7)).take 7).map (fun m => m.price))
  let m := ms.getD i default
  if baseline > 0 then
    let discount_pct := (baseline - m.price) / baseline
    if discount_pct ≥ MIN_DISCOUNT_THRESHOLD then
      if acc = [] ∨ m.date - acc.getLastI.date > 3 then
        acc ++ [⟨m.date, baseline, m.price, round1 (discount_pct * 100)⟩]
      else acc
    else acc
  else acc

/-- `DiscountCyclePredictor._detect_discounts` on the date-sorted metrics. -/
def detect_discounts (ms : List DailyMetric) : List DiscountEvent :=
  if ms.length < 7 then []
  else ((List.range ms.length).drop 7).foldl (detectStep ms) []

/-- `DiscountCyclePredictor._avg_discount`. -/
def avg_discount (discounts : List DiscountEvent) : ℚ :=
  if discounts = [] then 0 else listMean (discounts.map (fun d => d.discount_percent))

/-- `DiscountCyclePredictor._calculate_confidence`. -/
noncomputable def calculate_confidence (num_events : ℕ) (cycle_std : ℝ)
    (cycle_avg : ℚ) : ℝ :=
  let base : ℝ := if num_events ≥ 5 then 0.7 else if num_events ≥ 3 then 0.5 else 0.3
  let consistency : ℝ :=
    if (cycle_avg : ℝ) > 0 then 1 - min (cycle_std / (cycle_avg : ℝ)) 0.5 else 0.5
  min (base * consistency + 0.2) 0.95

/-- The fields of `DiscountCyclePrediction` (the free-text field is omitted). -/
structure Prediction where
  avg_cycle_days : Option ℚ
  next_predicted_discount : Option ℤ
  confidence : ℝ
  historical_discounts : List DiscountEvent
  typical_discount_percent : ℚ

/-- `DiscountCyclePredictor.predict`: needs 14+ points and 2+ detected
events for a cycle prediction; `next = last_event + int(cycle_mean)`. -/
noncomputable def predict (metrics : List DailyMetric) : Prediction :=
  if metrics.length < 14 then ⟨none, none, 0, [], 0⟩
  else
    let s := sortMetrics metrics
    let discounts := detect_discounts s
    if discounts.length < 2 then ⟨none, none, 0.1, discounts, avg_discount discounts⟩
    else
      let gaps : List ℤ := adjMap (fun a b => b.date - a.date) discounts
      let cycle_days := listMean (gaps.map (fun (g : ℤ) => (g : ℚ)))
      let cycle_std : ℝ :=
        if gaps.length > 1 then sampleStdev (gaps.map (fun (g : ℤ) => (g : ℚ))) else 0
      let next := (discounts.getLastI).date + ratTrunc cycle_days
      ⟨some (round1 cycle_days), some next,
        calculate_confidence discounts.length cycle_std cycle_days,
        discounts, avg_discount discounts⟩

end DiscountCycle

/-- `RegionalPrice` from `src/intelligence/currency.py`, restricted to the
fields the arbitrage analyzer reads. -/
structure RegionalPrice where
  platform : String
  country : String
  price_usd : ℚ
  price_with_tax_usd : ℚ
  in_stock : Bool
  deriving DecidableEq

instance : Inhabited RegionalPrice := ⟨⟨"", "", 0, 0, true⟩⟩

/-- Python `str.upper()` (ASCII, as used on the two-letter country codes). -/
def strUpper (s : String) : String := String.mk (s.data.map Char.toUpper)

namespace Arbitrage

def MIN_MARGIN_PERCENT : ℚ := 15

/-- `ArbitrageAnalyzer.IMPORT_DUTY_RATES.get(category, default)`. -/
def IMPORT_DUTY_RATES (category : String) : ℚ :=
  if category = "Electronics" then 0.05
  else if category = "Clothing" then 0.12
  else if category = "Toys" then 0.03
  else if category = "Beauty" then 0.08
  else if category = "Books" then 0
  else 0.05

/-- `estimate_shipping` from `src/intelligence/currency.py`
(`SHIPPING_ESTIMATES.get(key, 35.00)` on uppercased country codes). -/
def estimate_shipping (from_country to_country : String) : ℚ :=
  let key := (strUpper from_country, strUpper to_country)
  if key = ("US", "IN") then 25
  else if key = ("IN", "US") then 30
  else if key = ("US", "UK") then 20
  else if key = ("UK", "US") then 20
  else if key = ("US", "DE") then 22
  else if key = ("DE", "US") then 22
  else 35

/-- `ArbitrageOpportunity` (notes text omitted). -/
structure Opportunity where
  buy_from : RegionalPrice
  sell_to : RegionalPrice
  price_difference_usd : ℚ
  shipping_cost_usd : ℚ
  import_tax_estimate_usd : ℚ
  net_margin_usd : ℚ
  margin_percent : ℚ
  is_profitable : Bool
  deriving DecidableEq

/-- `ArbitrageAnalyzer._calculate_opportunity`; profitability is judged on
the unrounded margin percentage, the stored field is rounded. -/
def calculate_opportunity (buy sell : RegionalPrice) (category : String) :
    Opportunity :=
  let price_diff := sell.price_with_tax_usd - buy.price_usd
  let shipping := estimate_shipping buy.country sell.country
  let import_tax := buy.price_usd * IMPORT_DUTY_RATES category
  let net_margin := price_diff - shipping - import_tax
  let margin_percent := if buy.price_usd > 0 then net_margin / buy.price_usd * 100 else 0
  { buy_from := buy
    sell_to := sell
    price_difference_usd := round2 price_diff
    shipping_cost_usd := shipping
    import_tax_estimate_usd := round2 import_tax
    net_margin_usd := round2 net_margin
    margin_percent := round1 margin_percent
    is_profitable := if margin_percent ≥ MIN_MARGIN_PERCENT then true else false }

/-- `ArbitrageAnalyzer._find_opportunities`: collect profitable pairs with
distinct countries and in-stock buy side, sort by margin descending, top 5. -/
def find_opportunities (sorted_prices : List RegionalPrice) (category : String) :
    List Opportunity :=
  let opportunities := (sorted_prices.map (fun buy =>
    if !buy.in_stock then []
    else sorted_prices.filterMap (fun sell =>
      if buy.country = sell.country then none
      else
        let o := calculate_opportunity buy sell category
        if o.is_profitable then some o else none))).flatten
  (sortKeep (fun x y => x.margin_percent < y.margin_percent) opportunities).take 5

/-- The fields of `GlobalPriceComparison` the claims touch. -/
structure Comparison where
  price_spread_percent : ℚ
  arbitrage_opportunities : List Opportunity
  lowest_price : Option RegionalPrice
  highest_price : Option RegionalPrice

/-- `ArbitrageAnalyzer.analyze_prices`. -/
def analyze_prices (regional_prices : List RegionalPrice) (category : String) :
    Comparison :=
  if regional_prices.length < 2 then
    ⟨0, [], regional_prices.head?, regional_prices.head?⟩
  else
    let sorted_prices := sortKeep (fun x y => y.price_usd < x.price_usd) regional_prices
    let lowest := sorted_prices.headI
    let highest := sorted_prices.getLastI
    let spread_percent :=
      if lowest.price_usd > 0 then
        (highest.price_usd - lowest.price_usd) / lowest.price_usd * 100
      else 0
    ⟨round1 spread_percent, find_opportunities sorted_prices category,
      some lowest, some highest⟩

end Arbitrage

/-- `AlertSubscription`, restricted to the threshold fields the price-drop
trigger reads. -/
structure AlertSubscription where
  threshold_value : Option ℚ
  threshold_percent : Option ℚ
  deriving DecidableEq

/-- `TriggerResult` (`triggered`, `event_type`); payload and message
strings are omitted. -/
structure TriggerResult where
  triggered : Bool
  event_type : String
  deriving DecidableEq

/-- Python truthiness of an optional numeric column: `None` and `0` are
falsy. -/
def pyTruthy (o : Option ℚ) : Bool :=
  match o with
  | none => false
  | some v => decide (v ≠ 0)

namespace PriceDropTrigger

/-- `PriceDropTrigger.evaluate`: absolute threshold first (guarded by the
truthiness of `threshold_value`), then the percentage drop. -/
def evaluate (subscription : AlertSubscription) (current_metric : DailyMetric)
    (previous_metric : Option DailyMetric) : Option TriggerResult :=
  let current_price := current_metric.price
  if pyTruthy subscription.threshold_value
      ∧ current_price ≤ subscription.threshold_value.getD 0 then
    some ⟨true, "price_below_threshold"⟩
  else
    match previous_metric with
    | none => none
    | some prev =>
      if pyTruthy subscription.threshold_percent ∧ prev.price > 0
          ∧ (prev.price - current_price) / prev.price * 100
              ≥ subscription.threshold_percent.getD 0 then
        some ⟨true, "price_drop_percent"⟩
      else none

end PriceDropTrigger

namespace StockoutTrigger

/-- `StockoutTrigger.evaluate`. -/
def evaluate (_subscription : AlertSubscription) (current_metric : DailyMetric)
    (previous_metric : Option DailyMetric) : Option TriggerResult :=
  if current_metric.in_stock = false
      ∧ (previous_metric = none ∨ (previous_metric.getD default).in_stock) then
    some ⟨true, "stockout"⟩
  else if current_metric.in_stock ∧ previous_metric.isSome
      ∧ (previous_metric.getD default).in_stock = false then
    some ⟨true, "back_in_stock"⟩
  else none

end StockoutTrigger

/-- Extraction results of one Amazon product page, as produced by the
`_get_*` helpers of `AmazonScraper.scrape_product` (a `none` means the
selector matched nothing / no number could be parsed). -/
structure AmazonPage where
  blocked : Bool
  asin : Option String
  title : Option String
  price : Option ℚ
  original_price : Option ℚ
  rating : ℚ
  reviews : ℤ
  rank : Option ℤ
  category : Option String
  brand : Option String
  image_url : Option String
  in_stock : Bool
  seller_count : ℤ
  buybox_owner : Option String
  delivery_days : Option ℤ
  deriving DecidableEq

/-- `ScrapedProduct` from `src/scrapers/base.py`. -/
structure ScrapedProduct where
  asin : String
  title : String
  price : ℚ
  original_price : Option ℚ
  discount_percent : Option ℚ
  rank : Option ℤ
  category : String
  reviews : ℤ
  rating : ℚ
  seller_count : ℤ
  in_stock : Bool
  image_url : Option String
  brand : Option String
  delivery_days : Option ℤ
  buybox_owner : Option String
  deriving DecidableEq

namespace Amazon

/-- `AmazonScraper.scrape_product`, as a function of the page-extraction
results: blocked pages, missing ASIN and missing/empty title abort with
`None`; a missing price is replaced by `Decimal("0")` in the record. -/
def scrape_product (page : AmazonPage) : Option ScrapedProduct :=
  if page.blocked then none
  else
    match page.asin with
    | none => none
    | some asin =>
      match page.title with
      | none => none
      | some title =>
        if title = "" then none
        else
          let price := page.price
          let original_price := page.original_price
          let discount_percent : Option ℚ :=
            match original_price, price with
            | some o, some p => if o ≠ 0 ∧ p ≠ 0 ∧ o > p then some ((o - p) / o * 100) else none
            | _, _ => none
          let category :=
            match page.category with
            | some c => if c = "" then "Unknown" else c.trim
            | none => "Unknown"
          some
            { asin := asin
              title := title.trim
              price := price.getD 0
              original_price := original_price
              discount_percent := discount_percent
              rank := page.rank
              category := category
              reviews := page.reviews
              rating := page.rating
              seller_count := page.seller_count
              in_stock := page.in_stock
              image_url := page.image_url
              brand := page.brand
              delivery_days := page.delivery_days
              buybox_owner := page.buybox_owner }

end Amazon

/-- `CircuitBreaker` from `src/scrapers/proxy_manager.py`.  `failures`
models the `dict.get(p, 0)` counter table and `open_circuits` the trip-time
table; wall-clock `datetime.now()` is passed in explicitly as `now`
(seconds). -/
structure CircuitBreaker where
  failure_threshold : ℕ
  reset_timeout : ℤ
  failures : String → ℕ
  open_circuits : String → Option ℤ

namespace CircuitBreaker

/-- `CircuitBreaker.is_open` at wall-clock `now`: returns the answer and
the state after the check (the check itself closes an expired circuit and
resets its counter). -/
def is_open (cb : CircuitBreaker) (now : ℤ) (platform : String) :
    Bool × CircuitBreaker :=
  match cb.open_circuits platform with
  | some tripped_at =>
    if now - tripped_at > cb.reset_timeout then
      (false,
        { cb with
          open_circuits := fun p => if p = platform then none else cb.open_circuits p
          failures := fun p => if p = platform then 0 else cb.failures p })
    else (true, cb)
  | none => (false, cb)

/-- `CircuitBreaker.record_failure` at wall-clock `now`. -/
def record_failure (cb : CircuitBreaker) (now : ℤ) (platform : String) :
    CircuitBreaker :=
  let f := cb.failures platform + 1
  { cb with
    failures := fun p => if p = platform then f else cb.failures p
    open_circuits :=
      if cb.failure_threshold ≤ f then
        fun p => if p = platform then some now else cb.open_circuits p
      else cb.open_circuits }

/-- `CircuitBreaker.record_success`. -/
def record_success (cb : CircuitBreaker) (platform : String) : CircuitBreaker :=
  { cb with
    failures := fun p => if p = platform then 0 else cb.failures p
    open_circuits := fun p => if p = platform then none else cb.open_circuits p }

/-- `n` consecutive `record_failure` calls at wall-clock `now`. -/
def record_failures (cb : CircuitBreaker) (now : ℤ) (platform : String) :
    ℕ → CircuitBreaker
  | 0 => cb
  | n + 1 => record_failure (record_failures cb now platform n) now platform

end CircuitBreaker

/-- The process-wide instance:
`circuit_breaker = CircuitBreaker(failure_threshold=10, reset_timeout=300)`. -/
def circuit_breaker : CircuitBreaker :=
  ⟨10, 300, fun _ => 0, fun _ => none⟩

/-- An Amazon page whose title extracts but whose price selector yields
nothing. -/
def missing_price_page : AmazonPage :=
  ⟨false, some "B0EXAMPLE01", some "Widget Pro 3000", none, none, 4.5, 120,
    some 1500, some "Electronics", some "Widget Co", none, true, 3, none, none⟩

/-- A US and a UK regional price with the identical `price_usd = 1000`;
the UK tax-inclusive price is 1200. -/
def usBooks : RegionalPrice := ⟨"Amazon", "US", 1000, 1000, true⟩

def ukBooks : RegionalPrice := ⟨"Amazon", "UK", 1000, 1200, true⟩

/-- Eight-point review series whose last daily review delta (10) is 4.375
times the average delta: a review spike of magnitude between 3 and 5. -/
def msSpike : List DailyMetric :=
  [⟨0, 10, none, 0, 0, 1, true, none⟩, ⟨1, 10, none, 1, 0, 1, true, none⟩,
   ⟨2, 10, none, 2, 0, 1, true, none⟩, ⟨3, 10, none, 3, 0, 1, true, none⟩,
   ⟨4, 10, none, 4, 0, 1, true, none⟩, ⟨5, 10, none, 5, 0, 1, true, none⟩,
   ⟨6, 10, none, 6, 0, 1, true, none⟩, ⟨7, 10, none, 16, 0, 1, true, none⟩]

/-- Claim-side (spec) reading of the C9 detection rule, to be compared
with `DiscountCycle.detectStep`: an event is recorded at index `i` exactly
when the price is at least 5% below the mean of the 7 preceding prices and
the previously recorded event (if any) lies more than 3 days earlier. -/
def detectSpecStep (ms : List DailyMetric) (acc : List DiscountEvent) (i : ℕ) :
    List DiscountEvent :=
  let baseline := listMean (((ms.drop (i - 7)).take 7).map (fun m => m.price))
  let m := ms.getD i default
  if m.price ≤ (1 - DiscountCycle.MIN_DISCOUNT_THRESHOLD) * baseline
      ∧ acc.getLast?.all (fun last => m.date - last.date > 3) then
    acc ++ [⟨m.date, baseline, m.price,
      round1 ((baseline - m.price) / baseline * 100)⟩]
  else acc

/-- Claim-side detection over the whole series (see `detectSpecStep`). -/
def detectSpec (ms : List DailyMetric) : List DiscountEvent :=
  if ms.length < 7 then []
  else ((List.range ms.length).drop 7).foldl (detectSpecStep ms) []

/-- 17-day price series: flat at 100 with dips to 90 on days 7, 11 and 16
(discount events with gaps 4 and 5, cycle mean 4.5). -/
def msC9 : List DailyMetric :=
  [⟨0, 100, none, 0, 0, 1, true, none⟩, ⟨1, 100, none, 0, 0, 1, true, none⟩, ⟨2, 100, none, 0, 0, 1, true, none⟩, ⟨3, 100, none, 0, 0, 1, true, none⟩, ⟨4, 100, none, 0, 0, 1, true, none⟩, ⟨5, 100, none, 0, 0, 1, true, none⟩, ⟨6, 100, none, 0, 0, 1, true, none⟩, ⟨7, 90, none, 0, 0, 1, true, none⟩, ⟨8, 100, none, 0, 0, 1, true, none⟩, ⟨9, 100, none, 0, 0, 1, true, none⟩, ⟨10, 100, none, 0, 0, 1, true, none⟩, ⟨11, 90, none, 0, 0, 1, true, none⟩, ⟨12, 100, none, 0, 0, 1, true, none⟩, ⟨13, 100, none, 0, 0, 1, true, none⟩, ⟨14, 100, none, 0, 0, 1, true, none⟩, ⟨15, 100, none, 0, 0, 1, true, none⟩, ⟨16, 90, none, 0, 0, 1, true, none⟩]

theorem mem_insertKeep (keepB : α → α → Bool) (x a : α) (l : List α) :
    a ∈ insertKeep keepB x l ↔ a = x ∨ a ∈ l := by
  induction l with
  | nil => simp [insertKeep]
  | cons y ys ih =>
    simp only [insertKeep]
    split
    · simp only [List.mem_cons, ih]
      tauto
    · simp [List.mem_cons]

theorem mem_sortKeep (keepB : α → α → Bool) (a : α) (l : List α) :
    a ∈ sortKeep keepB l ↔ a ∈ l := by
  induction l with
  | nil => simp [sortKeep]
  | cons x xs ih => simp [sortKeep, mem_insertKeep, ih]

theorem length_insertKeep (keepB : α → α → Bool) (x : α) (l : List α) :
    (insertKeep keepB x l).length = l.length + 1 := by
  induction l with
  | nil => simp [insertKeep]
  | cons y ys ih =>
    simp only [insertKeep]
    split <;> simp [ih]

theorem length_sortKeep (keepB : α → α → Bool) (l : List α) :
    (sortKeep keepB l).length = l.length := by
  induction l with
  | nil => simp [sortKeep]
  | cons x xs ih => simp [sortKeep, length_insertKeep, ih]

theorem round_mono {x y : ℚ} (h : x ≤ y) : round x ≤ round y := by
  rw [round_eq, round_eq]
  exact Int.floor_le_floor (by linarith)

theorem round1_mono {x y : ℚ} (h : x ≤ y) : round1 x ≤ round1 y := by
  unfold round1
  have h := round_mono (x := 10 * x) (y := 10 * y) (by linarith)
  have h' : ((round (10 * x) : ℤ) : ℚ) ≤ ((round (10 * y) : ℤ) : ℚ) := by exact_mod_cast h
  linarith

theorem round1_intCast (n : ℤ) : round1 (n : ℚ) = n := by
  unfold round1
  have : (10 : ℚ) * (n : ℚ) = ((10 * n : ℤ) : ℚ) := by push_cast; ring
  rw [this, round_intCast]
  push_cast
  ring

/-- C7: the stockout trigger fires `stockout` exactly when the current
metric is out of stock and the previous metric is absent or was in stock;
`back_in_stock` exactly when the current metric is in stock and a previous
out-of-stock metric exists; and when both are out of stock, no event fires. -/
theorem stockout_trigger_characterization (sub : AlertSubscription)
    (cur : DailyMetric) (prev : Option DailyMetric) :
    (StockoutTrigger.evaluate sub cur prev = some ⟨true, "stockout"⟩ ↔
      cur.in_stock = false ∧ (prev = none ∨ ∃ p, prev = some p ∧ p.in_stock = true))
    ∧ (StockoutTrigger.evaluate sub cur prev = some ⟨true, "back_in_stock"⟩ ↔
      cur.in_stock = true ∧ ∃ p, prev = some p ∧ p.in_stock = false)
    ∧ ((cur.in_stock = false ∧ ∃ p, prev = some p ∧ p.in_stock = false) →
      StockoutTrigger.evaluate sub cur prev = none) := by
  unfold StockoutTrigger.evaluate
  rcases prev with _ | p
  · cases hc : cur.in_stock <;> simp [hc]
  · cases hc : cur.in_stock <;> cases hp : p.in_stock <;> simp [hc, hp]

/-- C7 witness: with both metrics out of stock, no event fires. -/
theorem stockout_trigger_characterization_witness :
    StockoutTrigger.evaluate ⟨none, none⟩
      ⟨1, 10, none, 0, 0, 1, false, none⟩
      (some ⟨0, 10, none, 0, 0, 1, false, none⟩) = none :=
  (stockout_trigger_characterization ⟨none, none⟩
    ⟨1, 10, none, 0, 0, 1, false, none⟩
    (some ⟨0, 10, none, 0, 0, 1, false, none⟩)).2.2
    ⟨rfl, ⟨0, 10, none, 0, 0, 1, false, none⟩, rfl, rfl⟩

/-- C6 counterexample: a subscription whose `threshold_value` is set to 0
together with a current price of 0 satisfies the claim's firing condition
("threshold_value is set and current.price ≤ threshold_value"), yet the
code fires nothing, because `if subscription.threshold_value:` treats the
Decimal 0 as falsy. -/
theorem price_drop_zero_threshold_counterexample :
    (⟨some 0, none⟩ : AlertSubscription).threshold_value = some 0
    ∧ (⟨0, 0, none, 0, 0, 1, true, none⟩ : DailyMetric).price ≤ 0
    ∧ PriceDropTrigger.evaluate ⟨some 0, none⟩
        ⟨0, 0, none, 0, 0, 1, true, none⟩ none = none := by
  refine ⟨rfl, le_refl 0, ?_⟩
  rfl

/-- C6 (amended): the price-drop trigger fires `price_below_threshold`
exactly when `threshold_value` is set *and nonzero* (Python truthiness)
and the current price is at or below it; otherwise it fires
`price_drop_percent` exactly when a previous metric exists,
`threshold_percent` is set and nonzero, the previous price is positive and
the percentage drop reaches it; in every other case it returns `None`, and
it returns at most one event (the evaluation is a pure function of
`(subscription, current, previous)`). -/
theorem price_drop_trigger_characterization (sub : AlertSubscription)
    (cur : DailyMetric) (prev : Option DailyMetric) :
    (PriceDropTrigger.evaluate sub cur prev = some ⟨true, "price_below_threshold"⟩ ↔
      pyTruthy sub.threshold_value = true ∧ cur.price ≤ sub.threshold_value.getD 0)
    ∧ (PriceDropTrigger.evaluate sub cur prev = some ⟨true, "price_drop_percent"⟩ ↔
      ¬(pyTruthy sub.threshold_value = true ∧ cur.price ≤ sub.threshold_value.getD 0)
      ∧ ∃ p, prev = some p ∧ pyTruthy sub.threshold_percent = true ∧ 0 < p.price
        ∧ sub.threshold_percent.getD 0 ≤ (p.price - cur.price) / p.price * 100)
    ∧ (PriceDropTrigger.evaluate sub cur prev = none
      ∨ PriceDropTrigger.evaluate sub cur prev = some ⟨true, "price_below_threshold"⟩
      ∨ PriceDropTrigger.evaluate sub cur prev = some ⟨true, "price_drop_percent"⟩) := by
  rcases prev with _ | p
  · by_cases h1 : pyTruthy sub.threshold_value = true ∧ cur.price ≤ sub.threshold_value.getD 0
    · have heval : PriceDropTrigger.evaluate sub cur none
          = some ⟨true, "price_below_threshold"⟩ := by
        simp only [PriceDropTrigger.evaluate, if_pos h1]
      rw [heval]
      exact ⟨iff_of_true rfl h1, iff_of_false (by simp) (fun hx => hx.1 h1),
        Or.inr (Or.inl rfl)⟩
    · have heval : PriceDropTrigger.evaluate sub cur none = none := by
        simp only [PriceDropTrigger.evaluate, if_neg h1]
      rw [heval]
      refine ⟨iff_of_false (by simp) h1, iff_of_false (by simp) ?_, Or.inl rfl⟩
      rintro ⟨-, q, hq, -⟩
      exact Option.noConfusion hq
  · by_cases h1 : pyTruthy sub.threshold_value = true ∧ cur.price ≤ sub.threshold_value.getD 0
    · have heval : PriceDropTrigger.evaluate sub cur (some p)
          = some ⟨true, "price_below_threshold"⟩ := by
        simp only [PriceDropTrigger.evaluate, if_pos h1]
      rw [heval]
      exact ⟨iff_of_true rfl h1, iff_of_false (by simp) (fun hx => hx.1 h1),
        Or.inr (Or.inl rfl)⟩
    · by_cases h2 : pyTruthy sub.threshold_percent = true ∧ p.price > 0
          ∧ (p.price - cur.price) / p.price * 100 ≥ sub.threshold_percent.getD 0
      · have heval : PriceDropTrigger.evaluate sub cur (some p)
            = some ⟨true, "price_drop_percent"⟩ := by
          simp only [PriceDropTrigger.evaluate, if_neg h1, if_pos h2]
        rw [heval]
        exact ⟨iff_of_false (by simp) (fun hx => h1 hx),
          iff_of_true rfl ⟨h1, p, rfl, h2.1, h2.2.1, h2.2.2⟩, Or.inr (Or.inr rfl)⟩
      · have heval : PriceDropTrigger.evaluate sub cur (some p) = none := by
          simp only [PriceDropTrigger.evaluate, if_neg h1, if_neg h2]
        rw [heval]
        refine ⟨iff_of_false (by simp) h1, iff_of_false (by simp) ?_, Or.inl rfl⟩
        rintro ⟨-, q, hq, ha, hb, hc⟩
        injection hq with hq
        subst hq
        exact h2 ⟨ha, hb, hc⟩

/-- C6 witness: a set, nonzero threshold at or above the current price
fires `price_below_threshold`. -/
theorem price_drop_trigger_characterization_witness :
    PriceDropTrigger.evaluate ⟨some 20, none⟩
      ⟨0, 15, none, 0, 0, 1, true, none⟩ none
      = some ⟨true, "price_below_threshold"⟩ :=
  (price_drop_trigger_characterization ⟨some 20, none⟩
    ⟨0, 15, none, 0, 0, 1, true, none⟩ none).1.mpr ⟨by decide, by norm_num⟩

theorem record_failures_spec (p : String) (t : ℤ) (n : ℕ) :
    (circuit_breaker.record_failures t p n).failures p = n
    ∧ (circuit_breaker.record_failures t p n).open_circuits p
        = (if 10 ≤ n then some t else none)
    ∧ (circuit_breaker.record_failures t p n).failure_threshold = 10
    ∧ (circuit_breaker.record_failures t p n).reset_timeout = 300 := by
  induction n with
  | zero => simp [CircuitBreaker.record_failures, circuit_breaker]
  | succ n ih =>
    obtain ⟨h1, h2, h3, h4⟩ := ih
    refine ⟨?_, ?_, ?_, ?_⟩
    · simp [CircuitBreaker.record_failures, CircuitBreaker.record_failure, h1]
    · simp only [CircuitBreaker.record_failures, CircuitBreaker.record_failure, h1, h3]
      by_cases hn : 10 ≤ n + 1
      · simp [hn]
      · simp [hn, h2, show ¬ (10 ≤ n) from by omega]
    · simp [CircuitBreaker.record_failures, CircuitBreaker.record_failure, h3]
    · simp [CircuitBreaker.record_failures, CircuitBreaker.record_failure, h4]

/-- C3 counterexample: after exactly 3 consecutive recorded failures, the
process-wide breaker (`failure_threshold=10`) still reports closed, while
the claim requires every check to reject after 3 failures. -/
theorem circuit_breaker_three_failures_counterexample :
    ((circuit_breaker.record_failures 0 "amazon" 3).is_open 0 "amazon").1 = false := by
  rfl

/-- C3 (amended): the code has a single process-wide breaker with
`failure_threshold=10` and `reset_timeout=300` (no free/paid modes).
Fewer than 10 consecutive recorded failures leave the breaker closed;
after 10 consecutive failures at time `t`, every `is_open` check rejects
while `now - t ≤ 300`, and the first check strictly after 300 seconds
closes the breaker and resets its failure counter; a recorded success
resets the counter and closes the circuit from any state. -/
theorem circuit_breaker_trip_and_reset (p : String) (t now : ℤ) (n : ℕ) :
    (n < 10 → ((circuit_breaker.record_failures t p n).is_open now p).1 = false)
    ∧ (now - t ≤ 300 →
        ((circuit_breaker.record_failures t p 10).is_open now p).1 = true)
    ∧ (300 < now - t →
        ((circuit_breaker.record_failures t p 10).is_open now p).1 = false
        ∧ ((circuit_breaker.record_failures t p 10).is_open now p).2.failures p = 0
        ∧ ((circuit_breaker.record_failures t p 10).is_open now p).2.open_circuits p
            = none)
    ∧ (∀ cb : CircuitBreaker,
        ((cb.record_success p).is_open now p).1 = false
        ∧ (cb.record_success p).failures p = 0) := by
  obtain ⟨hf, ho, hth, hrt⟩ := record_failures_spec p t 10
  refine ⟨?_, ?_, ?_, ?_⟩
  · intro hn
    obtain ⟨-, h2, -, -⟩ := record_failures_spec p t n
    rw [if_neg (by omega)] at h2
    simp [CircuitBreaker.is_open, h2]
  · intro hle
    rw [if_pos (by norm_num)] at ho
    simp [CircuitBreaker.is_open, ho, hrt, show ¬(300 < now - t) from by omega]
  · intro hgt
    rw [if_pos (by norm_num)] at ho
    simp [CircuitBreaker.is_open, ho, hrt, show 300 < now - t from hgt]
  · intro cb
    simp [CircuitBreaker.record_success, CircuitBreaker.is_open]

/-- C3 witness: concrete trips and resets of the amended statement. -/
theorem circuit_breaker_trip_and_reset_witness :
    ((circuit_breaker.record_failures 0 "x" 9).is_open 0 "x").1 = false
    ∧ ((circuit_breaker.record_failures 0 "x" 10).is_open 300 "x").1 = true
    ∧ ((circuit_breaker.record_failures 0 "x" 10).is_open 301 "x").1 = false
    ∧ ((circuit_breaker.record_failures 0 "x" 10).is_open 301 "x").2.failures "x" = 0
    ∧ ((circuit_breaker.record_success "x").is_open 0 "x").1 = false :=
  ⟨(circuit_breaker_trip_and_reset "x" 0 0 9).1 (by norm_num),
   (circuit_breaker_trip_and_reset "x" 0 300 0).2.1 (by norm_num),
   ((circuit_breaker_trip_and_reset "x" 0 301 0).2.2.1 (by norm_num)).1,
   ((circuit_breaker_trip_and_reset "x" 0 301 0).2.2.1 (by norm_num)).2.1,
   ((circuit_breaker_trip_and_reset "x" 0 0 0).2.2.2 circuit_breaker).1⟩

/-- C4: the claim (and the spec's failure semantics) require
`scrape_product` to return `None` for the whole record when no price can
be extracted, and never to fabricate a price of 0.  On a page with a title
but no price the code instead returns a full record whose `price` is
`Decimal("0")` (`price=price or Decimal("0")` in `AmazonScraper`). -/
theorem amazon_missing_price_returns_zero_record :
    missing_price_page.title = some "Widget Pro 3000"
    ∧ missing_price_page.price = none
    ∧ (Amazon.scrape_product missing_price_page).map (fun r => r.price) = some 0
    ∧ (Amazon.scrape_product missing_price_page).isSome = true := by
  exact ⟨rfl, rfl, rfl, rfl⟩

/-- C2: the engine's overall score equals
`0.35*demand + 0.25*((trend+100)/2) + 0.20*(100-competition) +
0.20*(100-risk)` rounded to one decimal, where the four components are the
calculator results on the same metric list. -/
theorem overall_score_formula (metrics : List DailyMetric) :
    Engine.overallOf metrics
      = round1R (0.35 * ((Demand.score metrics : ℚ) : ℝ)
        + 0.25 * ((((Trend.score metrics : ℚ) : ℝ) + 100) / 2)
        + 0.20 * (100 - ((Competition.score metrics : ℚ) : ℝ))
        + 0.20 * (100 - Risk.score metrics)) := by
  unfold Engine.overallOf Engine.overall_score
  have harg : ∀ x y : ℝ, x = y → round1R x = round1R y := fun x y h => by rw [h]
  apply harg
  ring

theorem headI_mem [Inhabited α] {l : List α} (h : l ≠ []) : l.headI ∈ l := by
  cases l with
  | nil => exact absurd rfl h
  | cons a t => exact List.mem_cons_self a t

theorem getLast?_iget_mem [Inhabited α] : ∀ (l : List α), l ≠ [] → l.getLast?.iget ∈ l := by
  intro l
  induction l with
  | nil => intro h; exact absurd rfl h
  | cons a t ih =>
    intro _
    cases t with
    | nil => simp
    | cons b t2 =>
      rw [List.getLast?_cons_cons]
      exact List.mem_cons_of_mem a (ih (by simp))

theorem getLastI_mem [Inhabited α] (l : List α) (h : l ≠ []) : l.getLastI ∈ l := by
  rw [List.getLastI_eq_getLast?]
  exact getLast?_iget_mem l h

theorem flatten_eq_nil_of_forall {l : List (List α)} (h : ∀ x ∈ l, x = []) :
    l.flatten = [] := by
  induction l with
  | nil => rfl
  | cons a t ih =>
    rw [List.flatten_cons, h a (List.mem_cons_self a t), List.nil_append]
    exact ih (fun x hx => h x (List.mem_cons_of_mem a hx))

theorem import_duty_nonneg (category : String) :
    0 ≤ Arbitrage.IMPORT_DUTY_RATES category := by
  simp only [Arbitrage.IMPORT_DUTY_RATES]
  split_ifs <;> norm_num

theorem estimate_shipping_ge (a b : String) : 20 ≤ Arbitrage.estimate_shipping a b := by
  simp only [Arbitrage.estimate_shipping]
  split_ifs <;> norm_num

/-- C5 counterexample: two regional prices with the identical
`price_usd = 1000` (US and UK, category Books, tax-inclusive sell price
1200) give `price_spread_percent = 0` but a *non-empty* opportunity list:
margin = 1200 − 1000 − 20 − 0 = 180, i.e. 18% ≥ 15%. -/
theorem arbitrage_identical_usd_counterexample :
    usBooks.price_usd = 1000 ∧ ukBooks.price_usd = 1000
    ∧ (Arbitrage.analyze_prices [usBooks, ukBooks] "Books").price_spread_percent = 0
    ∧ (Arbitrage.analyze_prices [usBooks, ukBooks]
        "Books").arbitrage_opportunities.length = 1 := by
  have hsort : sortKeep (fun x y => y.price_usd < x.price_usd) [usBooks, ukBooks]
      = [usBooks, ukBooks] := by decide
  have hship1 : Arbitrage.estimate_shipping "US" "UK" = 20 := by decide
  have hship2 : Arbitrage.estimate_shipping "UK" "US" = 20 := by decide
  have hduty : Arbitrage.IMPORT_DUTY_RATES "Books" = 0 := by decide
  have h1 : (Arbitrage.calculate_opportunity usBooks ukBooks "Books").is_profitable
      = true := by
    norm_num [Arbitrage.calculate_opportunity, hship1, hduty,
      Arbitrage.MIN_MARGIN_PERCENT, usBooks, ukBooks]
  have h2 : (Arbitrage.calculate_opportunity ukBooks usBooks "Books").is_profitable
      = false := by
    norm_num [Arbitrage.calculate_opportunity, hship2, hduty,
      Arbitrage.MIN_MARGIN_PERCENT, ukBooks, usBooks]
  have huP : usBooks.price_usd = 1000 := rfl
  have hkP : ukBooks.price_usd = 1000 := rfl
  have huC : usBooks.country = "US" := rfl
  have hkC : ukBooks.country = "UK" := rfl
  have huS : usBooks.in_stock = true := rfl
  have hkS : ukBooks.in_stock = true := rfl
  refine ⟨rfl, rfl, ?_, ?_⟩
  · norm_num [Arbitrage.analyze_prices, hsort, List.headI, List.getLastI, round1,
      round_eq, huP, hkP]
  · norm_num [Arbitrage.analyze_prices, Arbitrage.find_opportunities, hsort, h1, h2,
      sortKeep, insertKeep, huP, hkP, huC, hkC, huS, hkS, List.filterMap_cons,
      List.filterMap_nil, List.map_cons, List.map_nil, List.flatten, List.take]

/-- C5 (amended): for at least 2 regional prices that all carry the same
nonnegative `price_usd` *and* whose `price_with_tax_usd` equals that same
value, the analyzer reports `price_spread_percent = 0` and an empty
opportunity list.  (With identical `price_usd` alone the spread is still 0,
but a tax-inflated `price_with_tax_usd` can clear the 15% margin bar, as
the counterexample shows.) -/
theorem arbitrage_identical_prices (prices : List RegionalPrice) (p : ℚ)
    (category : String) (hlen : 2 ≤ prices.length) (hp : 0 ≤ p)
    (hall : ∀ rp ∈ prices, rp.price_usd = p ∧ rp.price_with_tax_usd = p) :
    (Arbitrage.analyze_prices prices category).price_spread_percent = 0
    ∧ (Arbitrage.analyze_prices prices category).arbitrage_opportunities = [] := by
  have hlen' : ¬ prices.length < 2 := by omega
  have hmem : ∀ rp ∈ sortKeep (fun x y => y.price_usd < x.price_usd) prices,
      rp.price_usd = p ∧ rp.price_with_tax_usd = p :=
    fun rp hrp => hall rp ((mem_sortKeep _ rp prices).mp hrp)
  have hne : sortKeep (fun x y => y.price_usd < x.price_usd) prices ≠ [] := by
    intro hnil
    have hlength := length_sortKeep (fun x y => y.price_usd < x.price_usd) prices
    rw [hnil] at hlength
    simp at hlength
    omega
  have hopp : ∀ buy ∈ sortKeep (fun x y => y.price_usd < x.price_usd) prices,
      ∀ sell ∈ sortKeep (fun x y => y.price_usd < x.price_usd) prices,
      (Arbitrage.calculate_opportunity buy sell category).is_profitable = false := by
    intro buy hbuy sell hsell
    obtain ⟨hb1, -⟩ := hmem buy hbuy
    obtain ⟨-, hs2⟩ := hmem sell hsell
    simp only [Arbitrage.calculate_opportunity, hb1, hs2]
    have hship := estimate_shipping_ge buy.country sell.country
    have hduty := import_duty_nonneg category
    have hnet : p - p - Arbitrage.estimate_shipping buy.country sell.country
        - p * Arbitrage.IMPORT_DUTY_RATES category < 0 := by
      have : 0 ≤ p * Arbitrage.IMPORT_DUTY_RATES category := mul_nonneg hp hduty
      linarith
    by_cases hppos : p > 0
    · rw [if_pos hppos, if_neg]
      intro hge
      have hlt : (p - p - Arbitrage.estimate_shipping buy.country sell.country
          - p * Arbitrage.IMPORT_DUTY_RATES category) / p * 100 < 0 := by
        apply mul_neg_of_neg_of_pos _ (by norm_num)
        exact div_neg_of_neg_of_pos hnet hppos
      rw [Arbitrage.MIN_MARGIN_PERCENT] at hge
      linarith
    · rw [if_neg hppos, if_neg]
      rw [Arbitrage.MIN_MARGIN_PERCENT]
      norm_num
  constructor
  · have hl := (hmem _ (headI_mem hne)).1
    have hh := (hmem _ (getLastI_mem _ hne)).1
    simp only [Arbitrage.analyze_prices]
    rw [if_neg hlen']
    simp only [hl, hh, sub_self, zero_div, zero_mul, ite_self]
    simp [round1]
  · simp only [Arbitrage.analyze_prices]
    rw [if_neg hlen']
    simp only [Arbitrage.find_opportunities]
    have hflat : ((sortKeep (fun x y => y.price_usd < x.price_usd) prices).map
        (fun buy =>
          if !buy.in_stock then []
          else (sortKeep (fun x y => y.price_usd < x.price_usd) prices).filterMap
            (fun sell =>
              if buy.country = sell.country then none
              else
                let o := Arbitrage.calculate_opportunity buy sell category
                if o.is_profitable then some o else none))).flatten = [] := by
    
      apply flatten_eq_nil_of_forall
      intro x hx
      obtain ⟨buy, hbuy, rfl⟩ := List.mem_map.mp hx
      split
      · rfl
      · apply List.filterMap_eq_nil_iff.mpr
        intro sell hsell
        split
        · rfl
        · simp only [hopp buy hbuy sell hsell]
          rfl
    rw [hflat]
    rfl

/-- C5 witness: two identical USD prices (tax-inclusive ones equal too)
yield zero spread and no opportunities. -/
theorem arbitrage_identical_prices_witness :
    (Arbitrage.analyze_prices
      [⟨"Amazon", "US", 50, 50, true⟩, ⟨"Flipkart", "IN", 50, 50, true⟩]
      "Electronics").price_spread_percent = 0
    ∧ (Arbitrage.analyze_prices
      [⟨"Amazon", "US", 50, 50, true⟩, ⟨"Flipkart", "IN", 50, 50, true⟩]
      "Electronics").arbitrage_opportunities = [] :=
  arbitrage_identical_prices
    [⟨"Amazon", "US", 50, 50, true⟩, ⟨"Flipkart", "IN", 50, 50, true⟩]
    50 "Electronics" (by norm_num) (by norm_num) (by decide)

theorem detect_review_spikes_magnitude (ms : List DailyMetric)
    (h : (Risk.detect_review_spikes ms).1 = true) :
    3 < (Risk.detect_review_spikes ms).2 := by
  simp only [Risk.detect_review_spikes] at h ⊢
  split_ifs at h ⊢
  all_goals simp_all

/-- C10: every generated risk flag in category `review_manipulation` has
severity `medium` or `high`, never `low`: the flag is only emitted when
the spike magnitude exceeds 3, which is already past the `low` tier. -/
theorem review_manipulation_flag_severity (metrics : List DailyMetric)
    (f : Risk.Flag) (hf : f ∈ Risk.flags metrics)
    (hcat : f.category = "review_manipulation") :
    f.severity = "medium" ∨ f.severity = "high" := by
  unfold Risk.flags at hf
  split_ifs at hf with hlen
  · exact absurd hf (List.not_mem_nil f)
  · unfold Risk.generate_flags at hf
    simp only [List.mem_append] at hf
    rcases hf with (hf | hf) | hf
    · by_cases hd : (Risk.signalsOf (sortMetrics metrics)).review_spike_detected = true
      · rw [if_pos hd] at hf
        simp only [List.mem_singleton] at hf
        subst hf
        have hmag : 3 < (Risk.signalsOf (sortMetrics metrics)).review_spike_magnitude := by
          have := detect_review_spikes_magnitude (sortMetrics metrics)
          simp only [Risk.signalsOf] at hd ⊢
          exact this hd
        by_cases h5 : (Risk.signalsOf (sortMetrics metrics)).review_spike_magnitude > 5
        · right
          simp [h5]
        · left
          simp [h5, hmag]
      · rw [if_neg hd] at hf
        exact absurd hf (List.not_mem_nil f)
    · by_cases hc : (Risk.signalsOf (sortMetrics metrics)).seller_churn_rate > 0.3
      · rw [if_pos hc] at hf
        simp only [List.mem_singleton] at hf
        subst hf
        exact absurd hcat (by decide)
      · rw [if_neg hc] at hf
        exact absurd hf (List.not_mem_nil f)
    · by_cases hv : (Risk.signalsOf (sortMetrics metrics)).rating_volatility > (0.5 : ℝ)
      · rw [if_pos hv] at hf
        simp only [List.mem_singleton] at hf
        subst hf
        exact absurd hcat (by decide)
      · rw [if_neg hv] at hf
        exact absurd hf (List.not_mem_nil f)

theorem risk_flags_msSpike :
    Risk.flags msSpike = [⟨"review_manipulation", "medium"⟩] := by
  have hsorted : sortMetrics msSpike = msSpike := by decide
  have hlen : msSpike.length = 8 := by decide
  have hch : Risk.daily_changes msSpike = [1, 1, 1, 1, 1, 1, 10] := by decide
  have hmax : ([1, 1, 1, 1, 1, 1, 10] : List ℤ).max? = some 10 := by decide
  have hdet : Risk.detect_review_spikes msSpike = (true, 35/8) := by
    simp only [Risk.detect_review_spikes, hch, hmax]
    norm_num [listMean, hlen, List.cons_ne_nil]
  have hc : countAdjChanges (msSpike.map (fun m => m.seller_count)) = 0 := by decide
  have hchurn : Risk.seller_churn msSpike = 0 := by
    norm_num [Risk.seller_churn, hc]
  have hflt : msSpike.filter (fun m => decide (m.rating ≠ 0)) = [] := by decide
  have hvol : Risk.rating_volatility msSpike = 0 := by
    simp only [Risk.rating_volatility, hflt]
    norm_num
  simp only [Risk.flags]
  rw [if_neg (by norm_num [hlen])]
  simp only [Risk.generate_flags, Risk.signalsOf, hsorted, hdet, hchurn, hvol]
  norm_num

/-- C10 witness: the spike series produces exactly one
`review_manipulation` flag and its severity is `medium`. -/
theorem review_manipulation_flag_severity_witness :
    (⟨"review_manipulation", "medium"⟩ : Risk.Flag).severity = "medium"
    ∨ (⟨"review_manipulation", "medium"⟩ : Risk.Flag).severity = "high" :=
  review_manipulation_flag_severity msSpike ⟨"review_manipulation", "medium"⟩
    (by rw [risk_flags_msSpike]; exact List.mem_singleton.mpr rfl) rfl

theorem round1R_mono {x y : ℝ} (h : x ≤ y) : round1R x ≤ round1R y := by
  unfold round1R
  have hr : round (10 * x) ≤ round (10 * y) := by
    rw [round_eq, round_eq]
    exact Int.floor_le_floor (by linarith)
  have h' : ((round (10 * x) : ℤ) : ℝ) ≤ ((round (10 * y) : ℤ) : ℝ) := by
    exact_mod_cast hr
  linarith

theorem round1R_intCast (n : ℤ) : round1R (n : ℝ) = n := by
  unfold round1R
  have h : (10 : ℝ) * (n : ℝ) = ((10 * n : ℤ) : ℝ) := by push_cast; ring
  rw [h, round_intCast]
  push_cast
  ring

theorem round1_le_int {x : ℚ} {n : ℤ} (h : x ≤ (n : ℚ)) : round1 x ≤ (n : ℚ) := by
  calc round1 x ≤ round1 (n : ℚ) := round1_mono h
  _ = n := round1_intCast n

theorem int_le_round1 {x : ℚ} {n : ℤ} (h : (n : ℚ) ≤ x) : (n : ℚ) ≤ round1 x := by
  calc (n : ℚ) = round1 (n : ℚ) := (round1_intCast n).symm
  _ ≤ round1 x := round1_mono h

theorem round1R_le_int {x : ℝ} {n : ℤ} (h : x ≤ (n : ℝ)) : round1R x ≤ (n : ℝ) := by
  calc round1R x ≤ round1R (n : ℝ) := round1R_mono h
  _ = n := round1R_intCast n

theorem int_le_round1R {x : ℝ} {n : ℤ} (h : (n : ℝ) ≤ x) : (n : ℝ) ≤ round1R x := by
  calc (n : ℝ) = round1R (n : ℝ) := (round1R_intCast n).symm
  _ ≤ round1R x := round1R_mono h

theorem stockout_frequency_nonneg (ms : List DailyMetric) :
    0 ≤ Demand.stockout_frequency ms := by
  unfold Demand.stockout_frequency
  split
  · norm_num
  · positivity

theorem demand_score_le_hundred (metrics : List DailyMetric) :
    Demand.score metrics ≤ 100 := by
  unfold Demand.score
  split
  · norm_num
  · have h1 : min (Demand.review_velocity (sortMetrics metrics) / 50) 1 ≤ 1 :=
      min_le_right _ _
    have h2 : min (max (Demand.rank_improvement (sortMetrics metrics)) 0 / 0.5) 1 ≤ 1 :=
      min_le_right _ _
    have h3 : min (Demand.stockout_frequency (sortMetrics metrics) / 0.3) 1 ≤ 1 :=
      min_le_right _ _
    have h4 : min (max (Demand.price_increase (sortMetrics metrics)) 0 / 0.2) 1 ≤ 1 :=
      min_le_right _ _
    have := round1_le_int (x := (min (Demand.review_velocity (sortMetrics metrics) / 50) 1
        * 0.4 + min (max (Demand.rank_improvement (sortMetrics metrics)) 0 / 0.5) 1 * 0.3
        + min (Demand.stockout_frequency (sortMetrics metrics) / 0.3) 1 * 0.2
        + min (max (Demand.price_increase (sortMetrics metrics)) 0 / 0.2) 1 * 0.1) * 100)
      (n := 100) (by nlinarith)
    exact_mod_cast this

theorem demand_score_nonneg (metrics : List DailyMetric)
    (h : 0 ≤ Demand.review_velocity (sortMetrics metrics)) :
    0 ≤ Demand.score metrics := by
  unfold Demand.score
  split
  · norm_num
  · have h1 : 0 ≤ min (Demand.review_velocity (sortMetrics metrics) / 50) 1 :=
      le_min (by positivity) (by norm_num)
    have h2 : 0 ≤ min (max (Demand.rank_improvement (sortMetrics metrics)) 0 / 0.5) 1 :=
      le_min (by positivity) (by norm_num)
    have h3 : 0 ≤ min (Demand.stockout_frequency (sortMetrics metrics) / 0.3) 1 := by
      have := stockout_frequency_nonneg (sortMetrics metrics)
      exact le_min (by positivity) (by norm_num)
    have h4 : 0 ≤ min (max (Demand.price_increase (sortMetrics metrics)) 0 / 0.2) 1 :=
      le_min (by positivity) (by norm_num)
    have := int_le_round1 (x := (min (Demand.review_velocity (sortMetrics metrics) / 50) 1
        * 0.4 + min (max (Demand.rank_improvement (sortMetrics metrics)) 0 / 0.5) 1 * 0.3
        + min (Demand.stockout_frequency (sortMetrics metrics) / 0.3) 1 * 0.2
        + min (max (Demand.price_increase (sortMetrics metrics)) 0 / 0.2) 1 * 0.1) * 100)
      (n := 0) (by nlinarith)
    exact_mod_cast this

theorem normalize_growth_bounds (v m : ℚ) :
    -1 ≤ Trend.normalize_growth v m ∧ Trend.normalize_growth v m ≤ 1 := by
  unfold Trend.normalize_growth
  constructor
  · exact le_max_left _ _
  · exact max_le (by norm_num) (min_le_left _ _)

theorem trend_score_bounds (metrics : List DailyMetric) :
    -100 ≤ Trend.score metrics ∧ Trend.score metrics ≤ 100 := by
  unfold Trend.score
  split
  · norm_num
  · obtain ⟨a1, a2⟩ := normalize_growth_bounds
      (Trend.review_velocity_growth ((sortMetrics metrics).take ((sortMetrics metrics).length / 2))
        ((sortMetrics metrics).drop ((sortMetrics metrics).length / 2))) 2
    obtain ⟨b1, b2⟩ := normalize_growth_bounds
      (Trend.rank_acceleration ((sortMetrics metrics).take ((sortMetrics metrics).length / 2))
        ((sortMetrics metrics).drop ((sortMetrics metrics).length / 2))) 1
    obtain ⟨c1, c2⟩ := normalize_growth_bounds (Trend.price_growth (sortMetrics metrics)) 0.5
    constructor
    · have := int_le_round1 (n := -100)
        (x := (Trend.normalize_growth (Trend.review_velocity_growth
            ((sortMetrics metrics).take ((sortMetrics metrics).length / 2))
            ((sortMetrics metrics).drop ((sortMetrics metrics).length / 2))) 2 * 0.5
          + Trend.normalize_growth (Trend.rank_acceleration
            ((sortMetrics metrics).take ((sortMetrics metrics).length / 2))
            ((sortMetrics metrics).drop ((sortMetrics metrics).length / 2))) 1 * 0.3
          + Trend.normalize_growth (Trend.price_growth (sortMetrics metrics)) 0.5 * 0.2) * 100)
        (by push_cast; nlinarith)
      exact_mod_cast this
    · have := round1_le_int (n := 100)
        (x := (Trend.normalize_growth (Trend.review_velocity_growth
            ((sortMetrics metrics).take ((sortMetrics metrics).length / 2))
            ((sortMetrics metrics).drop ((sortMetrics metrics).length / 2))) 2 * 0.5
          + Trend.normalize_growth (Trend.rank_acceleration
            ((sortMetrics metrics).take ((sortMetrics metrics).length / 2))
            ((sortMetrics metrics).drop ((sortMetrics metrics).length / 2))) 1 * 0.3
          + Trend.normalize_growth (Trend.price_growth (sortMetrics metrics)) 0.5 * 0.2) * 100)
        (by push_cast; nlinarith)
      exact_mod_cast this

theorem sum_sq_le_sq_sum (l : List ℚ) (h : ∀ x ∈ l, 0 ≤ x) :
    (l.map (fun x => x ^ 2)).sum ≤ l.sum ^ 2 := by
  induction l with
  | nil => simp
  | cons a t ih =>
    simp only [List.map_cons, List.sum_cons]
    have ha : 0 ≤ a := h a (List.mem_cons_self a t)
    have hts : 0 ≤ t.sum :=
      List.sum_nonneg (fun x hx => h x (List.mem_cons_of_mem a hx))
    have := ih (fun x hx => h x (List.mem_cons_of_mem a hx))
    nlinarith

theorem sum_map_div (l : List α) (f : α → ℚ) (c : ℚ) :
    (l.map (fun a => f a / c)).sum = (l.map f).sum / c := by
  induction l with
  | nil => simp
  | cons a t ih => simp [ih, add_div]

theorem review_concentration_bounds (ms : List DailyMetric) :
    0 ≤ Competition.review_concentration ms
    ∧ Competition.review_concentration ms ≤ 1 := by
  unfold Competition.review_concentration
  split
  · norm_num
  · by_cases howners : Competition.truthyOwners ms = []
    · simp only [howners]
      norm_num
    · simp only [if_neg howners]
      set owners := Competition.truthyOwners ms with howdef
      constructor
      · apply List.sum_nonneg
        intro x hx
        obtain ⟨k, -, rfl⟩ := List.mem_map.mp hx
        positivity
      · have hT : (0 : ℚ) < (owners.length : ℚ) := by
          have : owners ≠ [] := howners
          have : 0 < owners.length := List.length_pos.mpr this
          exact_mod_cast this
        have hcomp : (owners.dedup.map (fun k => ((owners.count k : ℚ)
            / (owners.length : ℚ)) ^ 2))
            = ((owners.dedup.map (fun k => (owners.count k : ℚ)
              / (owners.length : ℚ))).map (fun x => x ^ 2)) := by
          rw [List.map_map]
          rfl
        rw [hcomp]
        have hle := sum_sq_le_sq_sum
          (owners.dedup.map (fun k => (owners.count k : ℚ) / (owners.length : ℚ)))
          (by
            intro x hx
            obtain ⟨k, -, rfl⟩ := List.mem_map.mp hx
            positivity)
        have hsum : (owners.dedup.map (fun k => (owners.count k : ℚ)
            / (owners.length : ℚ))).sum = 1 := by
          have hdiv := sum_map_div owners.dedup (fun k => (owners.count k : ℚ))
            (owners.length : ℚ)
          rw [hdiv]
          have hcast : (owners.dedup.map (fun k => (owners.count k : ℚ))).sum
              = ((owners.dedup.map (fun k => owners.count k)).sum : ℕ) := by
            rw [Nat.cast_list_sum]
            rw [List.map_map]
            rfl
          rw [hcast, List.sum_map_count_dedup_eq_length]
          field_simp
        rw [hsum] at hle
        simpa using hle

theorem countAdjChanges_le [DecidableEq α] :
    ∀ l : List α, countAdjChanges l ≤ l.length - 1
  | [] => by simp [countAdjChanges]
  | [a] => by simp [countAdjChanges]
  | a :: b :: r => by
    have ih := countAdjChanges_le (b :: r)
    simp only [countAdjChanges, List.length_cons] at ih ⊢
    split_ifs <;> omega

theorem buybox_volatility_bounds (ms : List DailyMetric) :
    0 ≤ Competition.buybox_volatility ms ∧ Competition.buybox_volatility ms ≤ 1 := by
  unfold Competition.buybox_volatility
  split
  · norm_num
  · rename_i hlen
    have hlen2 : 2 ≤ ms.length := by omega
    constructor
    · apply div_nonneg (by positivity)
      have h2q : (2 : ℚ) ≤ (ms.length : ℚ) := by exact_mod_cast hlen2
      linarith
    · have hcount := countAdjChanges_le (ms.map (fun m => m.buybox_owner))
      rw [List.length_map] at hcount
      rw [div_le_one (by
        have : (2 : ℚ) ≤ (ms.length : ℚ) := by exact_mod_cast hlen2
        linarith)]
      have : (countAdjChanges (ms.map (fun m => m.buybox_owner)) : ℚ)
          ≤ ((ms.length - 1 : ℕ) : ℚ) := by exact_mod_cast hcount
      have hc : ((ms.length - 1 : ℕ) : ℚ) = (ms.length : ℚ) - 1 := by
        have : 1 ≤ ms.length := by omega
        push_cast [this]
        ring
      linarith [hc ▸ this]

theorem avg_sellers_nonneg (ms : List DailyMetric) : 0 ≤ Competition.avg_sellers ms := by
  unfold Competition.avg_sellers
  split
  · norm_num
  · apply div_nonneg _ (by positivity)
    apply List.sum_nonneg
    intro x hx
    obtain ⟨m, -, rfl⟩ := List.mem_map.mp hx
    positivity

theorem competition_score_bounds (metrics : List DailyMetric) :
    0 ≤ Competition.score metrics ∧ Competition.score metrics ≤ 100 := by
  unfold Competition.score
  split
  · norm_num
  · have h1a : 0 ≤ min (Competition.avg_sellers metrics / 50) 1 :=
      le_min (by have := avg_sellers_nonneg metrics; positivity) (by norm_num)
    have h1b : min (Competition.avg_sellers metrics / 50) 1 ≤ 1 := min_le_right _ _
    obtain ⟨h2a, h2b⟩ := review_concentration_bounds metrics
    obtain ⟨h3a, h3b⟩ := buybox_volatility_bounds metrics
    constructor
    · have := int_le_round1 (n := 0)
        (x := (min (Competition.avg_sellers metrics / 50) 1 * 0.4
          + (1 - Competition.review_concentration metrics) * 0.3
          + Competition.buybox_volatility metrics * 0.3) * 100) (by nlinarith)
      exact_mod_cast this
    · have := round1_le_int (n := 100)
        (x := (min (Competition.avg_sellers metrics / 50) 1 * 0.4
          + (1 - Competition.review_concentration metrics) * 0.3
          + Competition.buybox_volatility metrics * 0.3) * 100) (by nlinarith)
      exact_mod_cast this

theorem daily_changes_nonneg : ∀ l : List DailyMetric, ∀ c ∈ Risk.daily_changes l, 0 ≤ c
  | [] => by simp [Risk.daily_changes]
  | [_] => by simp [Risk.daily_changes]
  | a :: b :: r => by
    intro c hc
    simp only [Risk.daily_changes] at hc
    rcases List.mem_cons.mp hc with h | h
    · rw [h]
      exact le_max_left 0 _
    · exact daily_changes_nonneg (b :: r) c h

theorem detect_spike_magnitude_nonneg (ms : List DailyMetric) :
    0 ≤ (Risk.detect_review_spikes ms).2 := by
  have hmax : (0:ℚ) ≤ (((Risk.daily_changes ms).max?.getD 0 : ℤ) : ℚ) := by
    cases hm : (Risk.daily_changes ms).max? with
    | none => simp
    | some m =>
      have hmem : m ∈ Risk.daily_changes ms :=
        List.max?_mem (fun a b => max_choice a b) hm
      have h0 := daily_changes_nonneg ms m hmem
      simp only [Option.getD_some]
      exact_mod_cast h0
  have hmean : (0:ℚ) ≤ listMean ((Risk.daily_changes ms).map (fun (c : ℤ) => (c : ℚ))) := by
    unfold listMean
    apply div_nonneg _ (by positivity)
    apply List.sum_nonneg
    intro x hx
    rw [List.mem_map] at hx
    obtain ⟨d, hd2, hde⟩ := hx
    subst hde
    exact_mod_cast daily_changes_nonneg ms d hd2
  simp only [Risk.detect_review_spikes]
  split_ifs
  all_goals first
    | exact le_refl 0
    | exact div_nonneg hmax hmean

theorem seller_churn_bounds (ms : List DailyMetric) :
    0 ≤ Risk.seller_churn ms ∧ Risk.seller_churn ms ≤ 1 := by
  unfold Risk.seller_churn
  split
  · norm_num
  · rename_i hlen
    have hlen2 : 2 ≤ ms.length := by omega
    have h2q : (2 : ℚ) ≤ (ms.length : ℚ) := by exact_mod_cast hlen2
    constructor
    · apply div_nonneg (by positivity)
      linarith
    · have hcount := countAdjChanges_le (ms.map (fun m => m.seller_count))
      rw [List.length_map] at hcount
      rw [div_le_one (by linarith)]
      have hc1 : (countAdjChanges (ms.map (fun m => m.seller_count)) : ℚ)
          ≤ ((ms.length - 1 : ℕ) : ℚ) := by exact_mod_cast hcount
      have hc : ((ms.length - 1 : ℕ) : ℚ) = (ms.length : ℚ) - 1 := by
        have h1 : 1 ≤ ms.length := by omega
        push_cast [h1]
        ring
      linarith [hc ▸ hc1]

theorem rating_volatility_nonneg (ms : List DailyMetric) :
    0 ≤ Risk.rating_volatility ms := by
  simp only [Risk.rating_volatility]
  split
  · exact le_refl 0
  · exact Real.sqrt_nonneg _

theorem risk_score_bounds (metrics : List DailyMetric) :
    0 ≤ Risk.score metrics ∧ Risk.score metrics ≤ 100 := by
  simp only [Risk.score]
  split_ifs
  · norm_num
  · have hmag0 := detect_spike_magnitude_nonneg (sortMetrics metrics)
    obtain ⟨hch1, hch2⟩ := seller_churn_bounds (sortMetrics metrics)
    have hvol0 := rating_volatility_nonneg (sortMetrics metrics)
    have hmag : 0 ≤ (Risk.signalsOf (sortMetrics metrics)).review_spike_magnitude := hmag0
    have hch1' : 0 ≤ (Risk.signalsOf (sortMetrics metrics)).seller_churn_rate := hch1
    have hvol : (0:ℝ) ≤ (Risk.signalsOf (sortMetrics metrics)).rating_volatility := hvol0
    have a1 : 0 ≤ min ((Risk.signalsOf (sortMetrics metrics)).review_spike_magnitude / 5) 1 :=
      le_min (by positivity) (by norm_num)
    have a2 : min ((Risk.signalsOf (sortMetrics metrics)).review_spike_magnitude / 5) 1 ≤ 1 :=
      min_le_right _ _
    have b1 : 0 ≤ min ((Risk.signalsOf (sortMetrics metrics)).seller_churn_rate / 0.5) 1 :=
      le_min (by positivity) (by norm_num)
    have b2 : min ((Risk.signalsOf (sortMetrics metrics)).seller_churn_rate / 0.5) 1 ≤ 1 :=
      min_le_right _ _
    have c1 : (0:ℝ) ≤ min ((Risk.signalsOf (sortMetrics metrics)).rating_volatility / 1) 1 :=
      le_min (by positivity) (by norm_num)
    have c2 : min ((Risk.signalsOf (sortMetrics metrics)).rating_volatility / 1) 1 ≤ 1 :=
      min_le_right _ _
    have a1R : (0:ℝ) ≤ ((min ((Risk.signalsOf (sortMetrics metrics)).review_spike_magnitude / 5) 1 : ℚ) : ℝ) := by
      exact_mod_cast a1
    have a2R : ((min ((Risk.signalsOf (sortMetrics metrics)).review_spike_magnitude / 5) 1 : ℚ) : ℝ) ≤ 1 := by
      exact_mod_cast a2
    have b1R : (0:ℝ) ≤ ((min ((Risk.signalsOf (sortMetrics metrics)).seller_churn_rate / 0.5) 1 : ℚ) : ℝ) := by
      exact_mod_cast b1
    have b2R : ((min ((Risk.signalsOf (sortMetrics metrics)).seller_churn_rate / 0.5) 1 : ℚ) : ℝ) ≤ 1 := by
      exact_mod_cast b2
    constructor
    · refine le_trans (by norm_num) (int_le_round1R (n := 0) ?_)
      push_cast at a1R a2R b1R b2R ⊢
      nlinarith [c1, c2, a1R, a2R, b1R, b2R]
    · refine le_trans (round1R_le_int (n := 100) ?_) (by norm_num)
      push_cast at a1R a2R b1R b2R ⊢
      nlinarith [c1, c2, a1R, a2R, b1R, b2R]

/-- C1 (amended): competition ∈ [0,100], risk ∈ [0,100] and
trend ∈ [-100,100] hold for every metric list, and the demand score never
exceeds 100; but the demand score is only bounded below by 0 when the
review velocity of the sorted series is nonnegative (the code does not
clamp a negative review velocity), and the overall score lies in [0,100]
whenever the demand score is nonnegative.  (With a decreasing review count
both the demand score and the overall score go negative, see the
counterexample.) -/
theorem signal_score_bounds (metrics : List DailyMetric) :
    (0 ≤ Competition.score metrics ∧ Competition.score metrics ≤ 100)
    ∧ (0 ≤ Risk.score metrics ∧ Risk.score metrics ≤ 100)
    ∧ (-100 ≤ Trend.score metrics ∧ Trend.score metrics ≤ 100)
    ∧ Demand.score metrics ≤ 100
    ∧ (0 ≤ Demand.review_velocity (sortMetrics metrics) → 0 ≤ Demand.score metrics)
    ∧ (0 ≤ Demand.score metrics →
        0 ≤ Engine.overallOf metrics ∧ Engine.overallOf metrics ≤ 100) := by
  refine ⟨competition_score_bounds metrics, risk_score_bounds metrics,
    trend_score_bounds metrics, demand_score_le_hundred metrics,
    demand_score_nonneg metrics, ?_⟩
  intro hd
  obtain ⟨hc1, hc2⟩ := competition_score_bounds metrics
  obtain ⟨hr1, hr2⟩ := risk_score_bounds metrics
  obtain ⟨ht1, ht2⟩ := trend_score_bounds metrics
  have hd2 := demand_score_le_hundred metrics
  have hdR : (0:ℝ) ≤ ((Demand.score metrics : ℚ) : ℝ) := by exact_mod_cast hd
  have hdR2 : ((Demand.score metrics : ℚ) : ℝ) ≤ 100 := by exact_mod_cast hd2
  have hcR : (0:ℝ) ≤ ((Competition.score metrics : ℚ) : ℝ) := by exact_mod_cast hc1
  have hcR2 : ((Competition.score metrics : ℚ) : ℝ) ≤ 100 := by exact_mod_cast hc2
  have htR : (-100:ℝ) ≤ ((Trend.score metrics : ℚ) : ℝ) := by exact_mod_cast ht1
  have htR2 : ((Trend.score metrics : ℚ) : ℝ) ≤ 100 := by exact_mod_cast ht2
  simp only [Engine.overallOf, Engine.overall_score]
  constructor
  · refine le_trans (by norm_num) (int_le_round1R (n := 0) ?_)
    push_cast
    nlinarith [hr1, hr2]
  · refine le_trans (round1R_le_int (n := 100) ?_) (by norm_num)
    push_cast
    nlinarith [hr1, hr2]

/-- C1 counterexample: on a 2-point series whose review count falls from
10000 to 0, the unclamped review velocity makes the demand score -8000 and
drags the overall score to -2750.7, violating the claimed ranges
[0,100]. -/
theorem demand_negative_counterexample :
    Demand.score [⟨0, 10, none, 10000, 0, 1, true, none⟩,
      ⟨1, 10, none, 0, 0, 1, true, none⟩] < 0
    ∧ Engine.overallOf [⟨0, 10, none, 10000, 0, 1, true, none⟩,
      ⟨1, 10, none, 0, 0, 1, true, none⟩] < 0 := by
  have hsort : sortMetrics [⟨0, 10, none, 10000, 0, 1, true, none⟩,
      ⟨1, 10, none, 0, 0, 1, true, none⟩]
      = [⟨0, 10, none, 10000, 0, 1, true, none⟩,
        ⟨1, 10, none, 0, 0, 1, true, none⟩] := by decide
  have hd : Demand.score [⟨0, 10, none, 10000, 0, 1, true, none⟩,
      ⟨1, 10, none, 0, 0, 1, true, none⟩] = -8000 := by
    norm_num [Demand.score, hsort, Demand.review_velocity, Demand.rank_improvement,
      Demand.stockout_frequency, Demand.price_increase, List.headI, List.getLastI,
      List.filter, round1, round_eq, Int.floor_eq_iff]
  have hc : Competition.score [⟨0, 10, none, 10000, 0, 1, true, none⟩,
      ⟨1, 10, none, 0, 0, 1, true, none⟩] = 79/5 := by
    norm_num [Competition.score, Competition.avg_sellers, Competition.review_concentration,
      Competition.truthyOwners, Competition.buybox_volatility, countAdjChanges,
      List.filterMap_cons, round1, round_eq, Int.floor_eq_iff, List.cons_ne_nil]
  have ht : Trend.score [⟨0, 10, none, 10000, 0, 1, true, none⟩,
      ⟨1, 10, none, 0, 0, 1, true, none⟩] = 0 := by
    norm_num [Trend.score]
  have hr : Risk.score [⟨0, 10, none, 10000, 0, 1, true, none⟩,
      ⟨1, 10, none, 0, 0, 1, true, none⟩] = 0 := by
    norm_num [Risk.score]
  refine ⟨by rw [hd]; norm_num, ?_⟩
  simp only [Engine.overallOf, Engine.overall_score, hd, hc, ht, hr]
  norm_num [round1R, round_eq, Int.floor_eq_iff]

/-- C1 witness: on the empty series (nonnegative review velocity) the
demand score and the overall score are within their claimed ranges. -/
theorem signal_score_bounds_witness :
    0 ≤ Demand.score [] ∧ 0 ≤ Engine.overallOf [] ∧ Engine.overallOf [] ≤ 100 := by
  have h := signal_score_bounds []
  have hv : 0 ≤ Demand.review_velocity (sortMetrics []) := by
    norm_num [Demand.review_velocity, sortMetrics, sortKeep]
  have hd := h.2.2.2.2.1 hv
  exact ⟨hd, (h.2.2.2.2.2 hd).1, (h.2.2.2.2.2 hd).2⟩

theorem round2R_abs_sub (x : ℝ) : |round2R x - x| ≤ 1/200 := by
  unfold round2R
  have h := abs_sub_round (100 * x)
  have heq : (round (100 * x) : ℝ) / 100 - x = ((round (100 * x) : ℝ) - 100 * x) / 100 := by
    ring
  rw [heq, abs_div, abs_of_pos (show (0:ℝ) < 100 by norm_num), abs_sub_comm]
  linarith

theorem round2R_lt_round2R {x y : ℝ} (h : x + 1/100 < y) : round2R x < round2R y := by
  have hx := round2R_abs_sub x
  have hy := round2R_abs_sub y
  rw [abs_le] at hx hy
  linarith [hx.1, hx.2, hy.1, hy.2]

set_option maxHeartbeats 1000000 in
/-- C8: the estimator's daily-sales figure is the power law
`a * rank ** (-b)` clamped to [0.1, 10000], and for Electronics
(a=50000, b=0.8) at price $29.99 the estimates at ranks 100, 1000 and
10000 are strictly decreasing. -/
theorem revenue_power_law_monotonic :
    (∀ rank : ℤ, 0 < rank →
      Revenue.calculate_daily_sales rank 50000 0.8
        = max 0.1 (min (50000 * (rank : ℝ) ^ (-(0.8:ℝ))) 10000))
    ∧ (Revenue.estimate_from_rank 1000 29.99 "Electronics").estimated_daily_sales
        < (Revenue.estimate_from_rank 100 29.99 "Electronics").estimated_daily_sales
    ∧ (Revenue.estimate_from_rank 10000 29.99 "Electronics").estimated_daily_sales
        < (Revenue.estimate_from_rank 1000 29.99 "Electronics").estimated_daily_sales := by
  have hb10 : (0:ℝ) ≤ 10 := by norm_num
  have hb10' : (0:ℝ) < 10 := by norm_num
  have h110 : (1:ℝ) ≤ 10 := by norm_num
  -- the three power values
  set A := (10:ℝ) ^ (-(1.6:ℝ)) with hA
  set B := (10:ℝ) ^ (-(2.4:ℝ)) with hB
  set C := (10:ℝ) ^ (-(3.2:ℝ)) with hC
  set R := (10:ℝ) ^ ((0.8:ℝ)) with hR
  have hexp2 : ((100:ℝ)) ^ (-(0.8:ℝ)) = A := by
    have : (100:ℝ) = (10:ℝ) ^ ((2:ℕ):ℝ) := by
      rw [Real.rpow_natCast]
      norm_num
    rw [this, ← Real.rpow_mul hb10, hA]
    congr 1
    norm_num
  have hexp3 : ((1000:ℝ)) ^ (-(0.8:ℝ)) = B := by
    have : (1000:ℝ) = (10:ℝ) ^ ((3:ℕ):ℝ) := by
      rw [Real.rpow_natCast]
      norm_num
    rw [this, ← Real.rpow_mul hb10, hB]
    congr 1
    norm_num
  have hexp4 : ((10000:ℝ)) ^ (-(0.8:ℝ)) = C := by
    have : (10000:ℝ) = (10:ℝ) ^ ((4:ℕ):ℝ) := by
      rw [Real.rpow_natCast]
      norm_num
    rw [this, ← Real.rpow_mul hb10, hC]
    congr 1
    norm_num
  have hpow_bound : ∀ p q : ℝ, p ≤ q → (10:ℝ) ^ p ≤ (10:ℝ) ^ q :=
    fun p q hpq => Real.rpow_le_rpow_of_exponent_le h110 hpq
  have hneg1 : (10:ℝ) ^ (-(1:ℝ)) = 1/10 := by
    rw [Real.rpow_neg hb10, Real.rpow_one]
    norm_num
  have hneg2 : (10:ℝ) ^ (-(2:ℝ)) = 1/100 := by
    rw [Real.rpow_neg hb10]
    rw [show ((2:ℝ)) = ((2:ℕ):ℝ) by norm_num, Real.rpow_natCast]
    norm_num
  have hneg3 : (10:ℝ) ^ (-(3:ℝ)) = 1/1000 := by
    rw [Real.rpow_neg hb10]
    rw [show ((3:ℝ)) = ((3:ℕ):ℝ) by norm_num, Real.rpow_natCast]
    norm_num
  have hneg4 : (10:ℝ) ^ (-(4:ℝ)) = 1/10000 := by
    rw [Real.rpow_neg hb10]
    rw [show ((4:ℝ)) = ((4:ℕ):ℝ) by norm_num, Real.rpow_natCast]
    norm_num
  have hA_ub : A ≤ 1/10 := hneg1 ▸ hpow_bound _ _ (by norm_num)
  have hA_lb : 1/100 ≤ A := hneg2 ▸ hpow_bound _ _ (by norm_num)
  have hB_ub : B ≤ 1/100 := hneg2 ▸ hpow_bound _ _ (by norm_num)
  have hB_lb : 1/1000 ≤ B := hneg3 ▸ hpow_bound _ _ (by norm_num)
  have hC_ub : C ≤ 1/1000 := hneg3 ▸ hpow_bound _ _ (by norm_num)
  have hC_lb : 1/10000 ≤ C := hneg4 ▸ hpow_bound _ _ (by norm_num)
  have hBA : B * R = A := by
    rw [hB, hR, hA, ← Real.rpow_add hb10']
    congr 1
    norm_num
  have hCB : C * R = B := by
    rw [hC, hR, hB, ← Real.rpow_add hb10']
    congr 1
    norm_num
  have hR3 : 3 ≤ R := by
    have hx0 := Real.rpow_nonneg hb10 ((0.5):ℝ)
    have hsq : ((10:ℝ) ^ ((0.5):ℝ)) ^ (2:ℕ) = 10 := by
      rw [← Real.rpow_natCast ((10:ℝ) ^ ((0.5):ℝ)) 2, ← Real.rpow_mul hb10]
      norm_num
    have h05 : 3 ≤ (10:ℝ) ^ ((0.5):ℝ) := by nlinarith [hx0, hsq]
    exact le_trans h05 (hpow_bound _ _ (by norm_num))
  have hcal : Revenue.CATEGORY_CALIBRATION "Electronics" = (50000, 0.8) := by
    simp [Revenue.CATEGORY_CALIBRATION]
  have hds : ∀ r : ℤ, 0 < r →
      Revenue.calculate_daily_sales r 50000 0.8
        = max 0.1 (min (50000 * (r : ℝ) ^ (-(0.8:ℝ))) 10000) := by
    intro r hr
    simp only [Revenue.calculate_daily_sales]
    rw [if_neg (by omega)]
  have hds100 : Revenue.calculate_daily_sales 100 50000 0.8 = 50000 * A := by
    rw [hds 100 (by norm_num)]
    rw [show (((100:ℤ)):ℝ) = (100:ℝ) by norm_num, hexp2]
    rw [min_eq_left (by nlinarith), max_eq_right (by nlinarith)]
  have hds1000 : Revenue.calculate_daily_sales 1000 50000 0.8 = 50000 * B := by
    rw [hds 1000 (by norm_num)]
    rw [show (((1000:ℤ)):ℝ) = (1000:ℝ) by norm_num, hexp3]
    rw [min_eq_left (by nlinarith), max_eq_right (by nlinarith)]
  have hds10000 : Revenue.calculate_daily_sales 10000 50000 0.8 = 50000 * C := by
    rw [hds 10000 (by norm_num)]
    rw [show (((10000:ℤ)):ℝ) = (10000:ℝ) by norm_num, hexp4]
    rw [min_eq_left (by nlinarith), max_eq_right (by nlinarith)]
  have hest : ∀ r : ℤ, 0 < r →
      (Revenue.estimate_from_rank r 29.99 "Electronics").estimated_daily_sales
        = round2R (Revenue.calculate_daily_sales r 50000 0.8) := by
    intro r hr
    simp only [Revenue.estimate_from_rank, hcal]
    rw [if_neg (by omega)]
  refine ⟨hds, ?_, ?_⟩
  · rw [hest 100 (by norm_num), hest 1000 (by norm_num), hds100, hds1000]
    apply round2R_lt_round2R
    nlinarith [hBA, hR3, hB_lb]
  · rw [hest 1000 (by norm_num), hest 10000 (by norm_num), hds1000, hds10000]
    apply round2R_lt_round2R
    nlinarith [hCB, hR3, hC_lb]

/-- C8 witness: the clamped power-law formula at rank 100. -/
theorem revenue_power_law_monotonic_witness :
    Revenue.calculate_daily_sales 100 50000 0.8
      = max 0.1 (min (50000 * ((100:ℤ) : ℝ) ^ (-(0.8:ℝ))) 10000) :=
  revenue_power_law_monotonic.1 100 (by norm_num)

theorem mem_range_drop {n k a : ℕ} (h : a ∈ (List.range n).drop k) :
    k ≤ a ∧ a < n := by
  obtain ⟨i, hi, heq⟩ := List.mem_iff_getElem.mp h
  rw [List.getElem_drop] at heq
  rw [List.getElem_range] at heq
  have hlen : i < n - k := by
    simpa [List.length_drop, List.length_range] using hi
  omega

theorem foldl_congr_mem {f g : β → α → β} {l : List α}
    (h : ∀ b, ∀ a ∈ l, f b a = g b a) :
    ∀ init : β, l.foldl f init = l.foldl g init := by
  induction l with
  | nil => intro init; rfl
  | cons x xs ih =>
    intro init
    simp only [List.foldl_cons]
    rw [h init x (List.mem_cons_self x xs)]
    exact ih (fun b a ha => h b a (List.mem_cons_of_mem x ha)) (g init x)

theorem getLast?_eq_some_getLastI [Inhabited α] (l : List α) (h : l ≠ []) :
    l.getLast? = some l.getLastI := by
  rw [List.getLastI_eq_getLast?]
  cases hg : l.getLast? with
  | none =>
    rcases l with _ | ⟨a, t⟩
    · exact absurd rfl h
    · rw [List.getLast?_eq_getLast (a :: t) (by simp)] at hg
      exact Option.noConfusion hg
  | some x => rfl

theorem detectStep_eq_spec (ms : List DailyMetric) (hpos : ∀ m ∈ ms, 0 < m.price)
    (acc : List DiscountEvent) (i : ℕ) (h7 : 7 ≤ i) (hi : i < ms.length) :
    DiscountCycle.detectStep ms acc i = detectSpecStep ms acc i := by
  have hwlen : (((ms.drop (i - 7)).take 7).map (fun m => m.price)).length = 7 := by
    rw [List.length_map, List.length_take, List.length_drop]
    omega
  have hwpos : ∀ p ∈ ((ms.drop (i - 7)).take 7).map (fun m => m.price), 0 < p := by
    intro p hp
    rw [List.mem_map] at hp
    obtain ⟨m, hm, hpe⟩ := hp
    rw [← hpe]
    exact hpos m (List.mem_of_mem_drop (List.mem_of_mem_take hm))
  have hbase : 0 < listMean (((ms.drop (i - 7)).take 7).map (fun m => m.price)) := by
    unfold listMean
    apply div_pos
    · exact List.sum_pos _ hwpos (by intro hnil; rw [hnil] at hwlen; simp at hwlen)
    · rw [hwlen]
      norm_num
  simp only [DiscountCycle.detectStep, detectSpecStep]
  rw [if_pos hbase]
  by_cases hdisc : (listMean (((ms.drop (i - 7)).take 7).map (fun m => m.price))
      - (ms.getD i default).price)
      / listMean (((ms.drop (i - 7)).take 7).map (fun m => m.price))
      ≥ DiscountCycle.MIN_DISCOUNT_THRESHOLD
  · rw [if_pos hdisc]
    have hdisc' : (ms.getD i default).price
        ≤ (1 - DiscountCycle.MIN_DISCOUNT_THRESHOLD)
          * listMean (((ms.drop (i - 7)).take 7).map (fun m => m.price)) := by
      rw [ge_iff_le, le_div_iff₀ hbase] at hdisc
      nlinarith
    by_cases hfire : acc = []
        ∨ (ms.getD i default).date - acc.getLastI.date > 3
    · have hall : (Option.all
          (fun last => decide ((ms.getD i default).date - last.date > 3))
          acc.getLast?) = true := by
        rcases hacc : acc with _ | ⟨e, es⟩
        · rfl
        · rw [← hacc, getLast?_eq_some_getLastI acc (by rw [hacc]; simp)]
          rcases hfire with hnil | hgap
          · rw [hacc] at hnil
            exact absurd hnil (by simp)
          · simpa using hgap
      rw [if_pos hfire, if_pos ⟨hdisc', hall⟩]
    · rw [if_neg hfire, if_neg ?_]
      rintro ⟨-, hall⟩
      push_neg at hfire
      obtain ⟨hne, hgap⟩ := hfire
      rw [getLast?_eq_some_getLastI acc hne] at hall
      simp only [Option.all_some] at hall
      exact absurd (by simpa using hall) (not_lt.mpr hgap)
  · rw [if_neg hdisc, if_neg ?_]
    rintro ⟨hle, -⟩
    apply hdisc
    rw [ge_iff_le, le_div_iff₀ hbase]
    nlinarith

theorem detect_discounts_eq_spec (ms : List DailyMetric)
    (hpos : ∀ m ∈ ms, 0 < m.price) :
    DiscountCycle.detect_discounts ms = detectSpec ms := by
  unfold DiscountCycle.detect_discounts detectSpec
  by_cases hlen : ms.length < 7
  · rw [if_pos hlen, if_pos hlen]
  · rw [if_neg hlen, if_neg hlen]
    apply foldl_congr_mem
    intro b a ha
    obtain ⟨h7, hlt⟩ := mem_range_drop ha
    exact detectStep_eq_spec ms hpos b a h7 hlt

theorem detect_discounts_msC9 :
    DiscountCycle.detect_discounts msC9
      = ([⟨7, 100, 90, 10⟩, ⟨11, 690/7, 90, 87/10⟩, ⟨16, 690/7, 90, 87/10⟩] : List DiscountEvent) := by
  have hrange : (List.range (msC9.length)).drop 7
      = [7, 8, 9, 10, 11, 12, 13, 14, 15, 16] := by decide
  have hw7 : ((msC9.drop (7 - 7)).take 7).map (fun m => m.price)
      = ([100, 100, 100, 100, 100, 100, 100] : List ℚ) := by decide
  have hg7 : msC9.getD 7 default = ⟨7, 90, none, 0, 0, 1, true, none⟩ := by
    decide
  have hs7 : DiscountCycle.detectStep msC9 ([] : List DiscountEvent) 7
      = ([⟨7, 100, 90, 10⟩] : List DiscountEvent) := by
    simp only [DiscountCycle.detectStep, hw7, hg7]
    norm_num [listMean, DiscountCycle.MIN_DISCOUNT_THRESHOLD, round1, round_eq,
      List.getLastI]
  have hw8 : ((msC9.drop (8 - 7)).take 7).map (fun m => m.price)
      = ([100, 100, 100, 100, 100, 100, 90] : List ℚ) := by decide
  have hg8 : msC9.getD 8 default = ⟨8, 100, none, 0, 0, 1, true, none⟩ := by
    decide
  have hs8 : DiscountCycle.detectStep msC9 ([⟨7, 100, 90, 10⟩] : List DiscountEvent) 8
      = ([⟨7, 100, 90, 10⟩] : List DiscountEvent) := by
    simp only [DiscountCycle.detectStep, hw8, hg8]
    norm_num [listMean, DiscountCycle.MIN_DISCOUNT_THRESHOLD, round1, round_eq,
      List.getLastI]
  have hw9 : ((msC9.drop (9 - 7)).take 7).map (fun m => m.price)
      = ([100, 100, 100, 100, 100, 90, 100] : List ℚ) := by decide
  have hg9 : msC9.getD 9 default = ⟨9, 100, none, 0, 0, 1, true, none⟩ := by
    decide
  have hs9 : DiscountCycle.detectStep msC9 ([⟨7, 100, 90, 10⟩] : List DiscountEvent) 9
      = ([⟨7, 100, 90, 10⟩] : List DiscountEvent) := by
    simp only [DiscountCycle.detectStep, hw9, hg9]
    norm_num [listMean, DiscountCycle.MIN_DISCOUNT_THRESHOLD, round1, round_eq,
      List.getLastI]
  have hw10 : ((msC9.drop (10 - 7)).take 7).map (fun m => m.price)
      = ([100, 100, 100, 100, 90, 100, 100] : List ℚ) := by decide
  have hg10 : msC9.getD 10 default = ⟨10, 100, none, 0, 0, 1, true, none⟩ := by
    decide
  have hs10 : DiscountCycle.detectStep msC9 ([⟨7, 100, 90, 10⟩] : List DiscountEvent) 10
      = ([⟨7, 100, 90, 10⟩] : List DiscountEvent) := by
    simp only [DiscountCycle.detectStep, hw10, hg10]
    norm_num [listMean, DiscountCycle.MIN_DISCOUNT_THRESHOLD, round1, round_eq,
      List.getLastI]
  have hw11 : ((msC9.drop (11 - 7)).take 7).map (fun m => m.price)
      = ([100, 100, 100, 90, 100, 100, 100] : List ℚ) := by decide
  have hg11 : msC9.getD 11 default = ⟨11, 90, none, 0, 0, 1, true, none⟩ := by
    decide
  have hs11 : DiscountCycle.detectStep msC9 ([⟨7, 100, 90, 10⟩] : List DiscountEvent) 11
      = ([⟨7, 100, 90, 10⟩, ⟨11, 690/7, 90, 87/10⟩] : List DiscountEvent) := by
    simp only [DiscountCycle.detectStep, hw11, hg11]
    norm_num [listMean, DiscountCycle.MIN_DISCOUNT_THRESHOLD, round1, round_eq,
      List.getLastI]
  have hw12 : ((msC9.drop (12 - 7)).take 7).map (fun m => m.price)
      = ([100, 100, 90, 100, 100, 100, 90] : List ℚ) := by decide
  have hg12 : msC9.getD 12 default = ⟨12, 100, none, 0, 0, 1, true, none⟩ := by
    decide
  have hs12 : DiscountCycle.detectStep msC9 ([⟨7, 100, 90, 10⟩, ⟨11, 690/7, 90, 87/10⟩] : List DiscountEvent) 12
      = ([⟨7, 100, 90, 10⟩, ⟨11, 690/7, 90, 87/10⟩] : List DiscountEvent) := by
    simp only [DiscountCycle.detectStep, hw12, hg12]
    norm_num [listMean, DiscountCycle.MIN_DISCOUNT_THRESHOLD, round1, round_eq,
      List.getLastI]
  have hw13 : ((msC9.drop (13 - 7)).take 7).map (fun m => m.price)
      = ([100, 90, 100, 100, 100, 90, 100] : List ℚ) := by decide
  have hg13 : msC9.getD 13 default = ⟨13, 100, none, 0, 0, 1, true, none⟩ := by
    decide
  have hs13 : DiscountCycle.detectStep msC9 ([⟨7, 100, 90, 10⟩, ⟨11, 690/7, 90, 87/10⟩] : List DiscountEvent) 13
      = ([⟨7, 100, 90, 10⟩, ⟨11, 690/7, 90, 87/10⟩] : List DiscountEvent) := by
    simp only [DiscountCycle.detectStep, hw13, hg13]
    norm_num [listMean, DiscountCycle.MIN_DISCOUNT_THRESHOLD, round1, round_eq,
      List.getLastI]
  have hw14 : ((msC9.drop (14 - 7)).take 7).map (fun m => m.price)
      = ([90, 100, 100, 100, 90, 100, 100] : List ℚ) := by decide
  have hg14 : msC9.getD 14 default = ⟨14, 100, none, 0, 0, 1, true, none⟩ := by
    decide
  have hs14 : DiscountCycle.detectStep msC9 ([⟨7, 100, 90, 10⟩, ⟨11, 690/7, 90, 87/10⟩] : List DiscountEvent) 14
      = ([⟨7, 100, 90, 10⟩, ⟨11, 690/7, 90, 87/10⟩] : List DiscountEvent) := by
    simp only [DiscountCycle.detectStep, hw14, hg14]
    norm_num [listMean, DiscountCycle.MIN_DISCOUNT_THRESHOLD, round1, round_eq,
      List.getLastI]
  have hw15 : ((msC9.drop (15 - 7)).take 7).map (fun m => m.price)
      = ([100, 100, 100, 90, 100, 100, 100] : List ℚ) := by decide
  have hg15 : msC9.getD 15 default = ⟨15, 100, none, 0, 0, 1, true, none⟩ := by
    decide
  have hs15 : DiscountCycle.detectStep msC9 ([⟨7, 100, 90, 10⟩, ⟨11, 690/7, 90, 87/10⟩] : List DiscountEvent) 15
      = ([⟨7, 100, 90, 10⟩, ⟨11, 690/7, 90, 87/10⟩] : List DiscountEvent) := by
    simp only [DiscountCycle.detectStep, hw15, hg15]
    norm_num [listMean, DiscountCycle.MIN_DISCOUNT_THRESHOLD, round1, round_eq,
      List.getLastI]
  have hw16 : ((msC9.drop (16 - 7)).take 7).map (fun m => m.price)
      = ([100, 100, 90, 100, 100, 100, 100] : List ℚ) := by decide
  have hg16 : msC9.getD 16 default = ⟨16, 90, none, 0, 0, 1, true, none⟩ := by
    decide
  have hs16 : DiscountCycle.detectStep msC9 ([⟨7, 100, 90, 10⟩, ⟨11, 690/7, 90, 87/10⟩] : List DiscountEvent) 16
      = ([⟨7, 100, 90, 10⟩, ⟨11, 690/7, 90, 87/10⟩, ⟨16, 690/7, 90, 87/10⟩] : List DiscountEvent) := by
    simp only [DiscountCycle.detectStep, hw16, hg16]
    norm_num [listMean, DiscountCycle.MIN_DISCOUNT_THRESHOLD, round1, round_eq,
      List.getLastI]
  simp only [DiscountCycle.detect_discounts]
  rw [if_neg (by decide), hrange]
  simp only [List.foldl_cons, List.foldl_nil, hs7, hs8, hs9, hs10, hs11, hs12, hs13, hs14, hs15, hs16]

/-- C9 (amended): on a series of positive prices, the detector records an
event exactly as the claim states (at least 5% below the trailing 7-day
mean, previous event more than 3 days earlier — `detectSpec`); a cycle
prediction is returned only with at least 14 points and at least 2 events,
a null prediction otherwise; but `avg_cycle_days` is the mean of the
consecutive event gaps *rounded to one decimal*, and the predicted date is
the last event date plus the mean *truncated to whole days* (Python
`int()`), not the exact mean. -/
theorem discount_cycle_prediction (metrics : List DailyMetric)
    (hpos : ∀ m ∈ metrics, 0 < m.price) :
    DiscountCycle.detect_discounts (sortMetrics metrics)
        = detectSpec (sortMetrics metrics)
    ∧ (metrics.length < 14 →
        (DiscountCycle.predict metrics).avg_cycle_days = none
        ∧ (DiscountCycle.predict metrics).next_predicted_discount = none)
    ∧ (14 ≤ metrics.length →
        (DiscountCycle.detect_discounts (sortMetrics metrics)).length < 2 →
        (DiscountCycle.predict metrics).avg_cycle_days = none
        ∧ (DiscountCycle.predict metrics).next_predicted_discount = none)
    ∧ (14 ≤ metrics.length →
        2 ≤ (DiscountCycle.detect_discounts (sortMetrics metrics)).length →
        (DiscountCycle.predict metrics).avg_cycle_days
          = some (round1 (listMean ((adjMap (fun a b => b.date - a.date)
              (DiscountCycle.detect_discounts (sortMetrics metrics))).map
                (fun (g : ℤ) => (g : ℚ)))))
        ∧ (DiscountCycle.predict metrics).next_predicted_discount
          = some ((DiscountCycle.detect_discounts (sortMetrics metrics)).getLastI.date
            + ratTrunc (listMean ((adjMap (fun a b => b.date - a.date)
                (DiscountCycle.detect_discounts (sortMetrics metrics))).map
                  (fun (g : ℤ) => (g : ℚ)))))) := by
  have hpos' : ∀ m ∈ sortMetrics metrics, 0 < m.price :=
    fun m hm => hpos m ((mem_sortKeep _ m metrics).mp hm)
  refine ⟨detect_discounts_eq_spec _ hpos', ?_, ?_, ?_⟩
  · intro hlen
    simp only [DiscountCycle.predict, if_pos hlen]
    exact ⟨by trivial, by trivial⟩
  · intro hlen hev
    simp only [DiscountCycle.predict, if_neg (not_lt.mpr hlen), if_pos hev]
    exact ⟨by trivial, by trivial⟩
  · intro hlen hev
    simp only [DiscountCycle.predict, if_neg (not_lt.mpr hlen),
      if_neg (not_lt.mpr hev)]
    exact ⟨by trivial, by trivial⟩

/-- C9 counterexample: on `msC9` the detected events are on days 7, 11
and 16 (gaps 4 and 5, cycle mean 4.5), and the code predicts day
16 + int(4.5) = 20, while the claim's "last event date + cycle mean" is
20.5 — so the prediction date is the truncated sum, not the exact one. -/
theorem discount_cycle_next_date_counterexample :
    (DiscountCycle.predict msC9).next_predicted_discount = some 20
    ∧ (DiscountCycle.detect_discounts (sortMetrics msC9)).getLastI.date = 16
    ∧ listMean ((adjMap (fun a b => b.date - a.date)
        (DiscountCycle.detect_discounts (sortMetrics msC9))).map
          (fun (g : ℤ) => (g : ℚ))) = 9/2
    ∧ ((20:ℚ) < 16 + 9/2) := by
  have hsort : sortMetrics msC9 = msC9 := by decide
  have hgaps : adjMap (fun a b => b.date - a.date)
      ([⟨7, 100, 90, 10⟩, ⟨11, 690/7, 90, 87/10⟩, ⟨16, 690/7, 90, 87/10⟩]
        : List DiscountEvent) = ([4, 5] : List ℤ) := by
    simp [adjMap]
  have hmean : listMean (([4, 5] : List ℤ).map (fun (g : ℤ) => (g : ℚ))) = 9/2 := by
    norm_num [listMean]
  refine ⟨?_, ?_, ?_, by norm_num⟩
  · simp only [DiscountCycle.predict]
    rw [if_neg (by decide), hsort, detect_discounts_msC9]
    rw [if_neg (by norm_num)]
    simp only [hgaps, hmean, List.getLastI]
    norm_num [ratTrunc]
  · rw [hsort, detect_discounts_msC9]
    simp [List.getLastI]
  · rw [hsort, detect_discounts_msC9, hgaps, hmean]

/-- C9 witness: the amended prediction formulas applied to `msC9`. -/
theorem discount_cycle_prediction_witness :
    (DiscountCycle.predict msC9).avg_cycle_days = some (9/2)
    ∧ (DiscountCycle.predict msC9).next_predicted_discount = some 20 := by
  have hsort : sortMetrics msC9 = msC9 := by decide
  have hgaps : adjMap (fun a b => b.date - a.date)
      ([⟨7, 100, 90, 10⟩, ⟨11, 690/7, 90, 87/10⟩, ⟨16, 690/7, 90, 87/10⟩]
        : List DiscountEvent) = ([4, 5] : List ℤ) := by
    simp [adjMap]
  have hlen : 2 ≤ (DiscountCycle.detect_discounts (sortMetrics msC9)).length := by
    rw [hsort, detect_discounts_msC9]
    norm_num
  obtain ⟨h1, h2⟩ := (discount_cycle_prediction msC9 (by decide)).2.2.2 (by decide) hlen
  constructor
  · rw [h1, hsort, detect_discounts_msC9, hgaps]
    norm_num [listMean, round1, round_eq]
  · rw [h2, hsort, detect_discounts_msC9, hgaps]
    norm_num [listMean, List.getLastI, ratTrunc]
